import Mathlib

/-!
Verification of the order-workflow state engine shared by the demo files of
this repository (`advanced_patterns.py`, `global_state.py`,
`event_driven_state.py`).

Python dictionaries are embedded as association lists with unique keys in
insertion order (`AList` below); Python scalar values stored in the order /
result / log records are embedded by the sum type `Value`; machine integers
are `Int` (Python ints are unbounded, so no wrap-around is modelled).
Fallible operations return `Option` or an explicit result type, and a
`raise` that the source does not catch is a distinguished result
constructor (or `Option.none`).
-/

namespace StrandsState

/-- `OrderState` from `advanced_patterns.py` (Pattern 4). -/
inductive OrderState where
  | CREATED
  | INVENTORY_CHECKED
  | PAYMENT_PROCESSED
  | SHIPPED
  | COMPLETED
  | CANCELLED
deriving DecidableEq, Repr

/-- `EventType` from `event_driven_state.py`. -/
inductive EventType where
  | ORDER_CREATED
  | INVENTORY_CHECKED
  | PAYMENT_PROCESSED
  | ORDER_SHIPPED
  | INVENTORY_LOW
  | ORDER_COMPLETED
deriving DecidableEq, Repr

/-- A scalar Python value as stored in the order / result / inventory-log
records of this repository: `None`, booleans, ints, strings, lists of
strings, and `OrderState` enum members. -/
inductive Value where
  | vnone : Value
  | vbool : Bool → Value
  | vint : Int → Value
  | vstr : String → Value
  | vstrList : List String → Value
  | vstate : OrderState → Value
deriving DecidableEq, Repr

/-- A Python dict keyed by `κ`, as an association list in insertion order
with (by construction) unique keys. -/
abbrev AList (κ α : Type) : Type := List (κ × α)

namespace AList

variable {κ α : Type} [DecidableEq κ]

/-- `d.get(k)` / `d[k]` lookup. -/
def get : AList κ α → κ → Option α
  | [], _ => none
  | p :: rest, k => if p.1 = k then some p.2 else get rest k

/-- `d[k] = v`: replace the first binding of `k` in place, else append. -/
def set : AList κ α → κ → α → AList κ α
  | [], k, v => [(k, v)]
  | p :: rest, k, v => if p.1 = k then (k, v) :: rest else p :: set rest k v

/-- `d.update(u)`: apply every binding of `u` to `d`, in order. -/
def update (d u : AList κ α) : AList κ α :=
  List.foldl (fun acc p => set acc p.1 p.2) d u

/-- `del d[k]` (keys are unique, so removing every binding of `k` agrees
with Python's single-binding delete). -/
def erase : AList κ α → κ → AList κ α
  | [], _ => []
  | p :: rest, k => if p.1 = k then erase rest k else p :: erase rest k

end AList

/-- String-keyed Python dict. -/
abbrev Dict (α : Type) : Type := AList String α

/-- Python truthiness of a `Value` (`if data:` / `if self.previous_data:`). -/
def pyTruthy : Value → Bool
  | .vnone => false
  | .vbool b => b
  | .vint z => z ≠ 0
  | .vstr s => s ≠ ""
  | .vstrList l => ¬l.isEmpty
  | .vstate _ => true

/-- `OrderStateMachine.VALID_TRANSITIONS` (`advanced_patterns.py`,
lines 51-58). -/
def VALID_TRANSITIONS : OrderState → List OrderState
  | .CREATED => [.INVENTORY_CHECKED, .CANCELLED]
  | .INVENTORY_CHECKED => [.PAYMENT_PROCESSED, .CANCELLED]
  | .PAYMENT_PROCESSED => [.SHIPPED, .CANCELLED]
  | .SHIPPED => [.COMPLETED]
  | .COMPLETED => []
  | .CANCELLED => []

/-- `OrderStateMachine` (`advanced_patterns.py`, Pattern 4): its only
instance attribute is the `orders` dict mapping order id to order record. -/
structure OrderStateMachine where
  orders : Dict (Dict Value)
deriving DecidableEq, Repr

namespace OrderStateMachine

/-- `OrderStateMachine.create_order` (lines 63-75): returns `False` and
leaves the collection alone when `order_id` is already present, otherwise
inserts the fresh record in state `CREATED` with `total = 0`. -/
def create_order (m : OrderStateMachine) (order_id customer_id : String)
    (items : List String) : Bool × OrderStateMachine :=
  match AList.get m.orders order_id with
  | some _ => (false, m)
  | none =>
      (true, ⟨AList.set m.orders order_id
        [("order_id", .vstr order_id),
         ("customer_id", .vstr customer_id),
         ("items", .vstrList items),
         ("state", .vstate .CREATED),
         ("total", .vint 0)]⟩)

/-- Outcome of `OrderStateMachine.transition_to` (lines 77-91):
`ok b` is a normal return of the Python bool `b`; `invalidTransition s t`
is the `raise ValueError(...)` carrying the attempted `(from, to)` pair;
`keyError` is the uncaught `KeyError` Python would raise in
`VALID_TRANSITIONS[current_state]` if the record's `"state"` entry were
missing or not an `OrderState` member. -/
inductive TransitionResult where
  | ok : Bool → TransitionResult
  | invalidTransition : OrderState → OrderState → TransitionResult
  | keyError : TransitionResult
deriving DecidableEq, Repr

/-- `OrderStateMachine.transition_to` (lines 77-91).  The state field is
assigned first and `data` is merged afterwards (`self.orders[order_id].update(data)`),
exactly as in the source; `data = None` and `data = {}` are both falsy and
skip the merge. -/
def transition_to (m : OrderStateMachine) (order_id : String)
    (new_state : OrderState) (data : Option (Dict Value)) :
    TransitionResult × OrderStateMachine :=
  match AList.get m.orders order_id with
  | none => (.ok false, m)
  | some order =>
      match AList.get order "state" with
      | some (.vstate current_state) =>
          if new_state ∈ VALID_TRANSITIONS current_state then
            let order1 := AList.set order "state" (.vstate new_state)
            let order2 :=
              match data with
              | some d => if d.isEmpty then order1 else AList.update order1 d
              | none => order1
            (.ok true, ⟨AList.set m.orders order_id order2⟩)
          else
            (.invalidTransition current_state new_state, m)
      | _ => (.keyError, m)

/-- `OrderStateMachine.can_transition_to` (lines 93-99), on records whose
`"state"` entry is a state member (all records the class itself builds). -/
def can_transition_to (m : OrderStateMachine) (order_id : String)
    (new_state : OrderState) : Bool :=
  match AList.get m.orders order_id with
  | none => false
  | some order =>
      match AList.get order "state" with
      | some (.vstate current_state) => new_state ∈ VALID_TRANSITIONS current_state
      | _ => false

/-- `OrderStateMachine.get_order` (lines 101-103). -/
def get_order (m : OrderStateMachine) (order_id : String) :
    Option (Dict Value) :=
  AList.get m.orders order_id

end OrderStateMachine

/-- An operation of the state-machine API, for stating trace invariants. -/
inductive Op where
  | create : String → String → List String → Op
  | transition : String → OrderState → Option (Dict Value) → Op
  | getOrder : String → Op
deriving DecidableEq, Repr

/-- State effect of one API call (return values discarded). -/
def applyOp (m : OrderStateMachine) : Op → OrderStateMachine
  | .create oid cid items => (m.create_order oid cid items).2
  | .transition oid t d => (m.transition_to oid t d).2
  | .getOrder _ => m

/-- State after a sequence of API calls. -/
def run (m : OrderStateMachine) (ops : List Op) : OrderStateMachine :=
  List.foldl applyOp m ops

/-- The `"state"` field of an order record, when present and a state member. -/
def stateOf (m : OrderStateMachine) (order_id : String) : Option OrderState :=
  match AList.get m.orders order_id with
  | some order =>
      match AList.get order "state" with
      | some (.vstate s) => some s
      | _ => none
  | none => none

/-- The record written by a successful `transition_to`: the `"state"` field
is assigned `new_state`, then `data` (when truthy) is merged over it. -/
def transitionedRecord (order : Dict Value) (new_state : OrderState)
    (data : Option (Dict Value)) : Dict Value :=
  match data with
  | some d =>
      if d.isEmpty then AList.set order "state" (.vstate new_state)
      else AList.update (AList.set order "state" (.vstate new_state)) d
  | none => AList.set order "state" (.vstate new_state)

/-- `InMemoryRepository` (`advanced_patterns.py`, lines 128-148): a dict
from key to record.  `save` stores `data.copy()`; records are immutable
values in this embedding, so the copy is the value itself. -/
structure InMemoryRepository where
  data : Dict (Dict Value)
deriving DecidableEq, Repr

namespace InMemoryRepository

/-- `InMemoryRepository.save` (lines 134-136): always returns `True`. -/
def save (r : InMemoryRepository) (key : String) (d : Dict Value) :
    Bool × InMemoryRepository :=
  (true, ⟨AList.set r.data key d⟩)

/-- `InMemoryRepository.load` (lines 138-139). -/
def load (r : InMemoryRepository) (key : String) : Option (Dict Value) :=
  AList.get r.data key

/-- `InMemoryRepository.delete` (lines 141-145): reports whether the key
was present. -/
def delete (r : InMemoryRepository) (key : String) :
    Bool × InMemoryRepository :=
  match AList.get r.data key with
  | some _ => (true, ⟨AList.erase r.data key⟩)
  | none => (false, r)

/-- `InMemoryRepository.list_keys` (lines 147-148). -/
def list_keys (r : InMemoryRepository) : List String :=
  List.map Prod.fst r.data

end InMemoryRepository

/-- The constructor arguments of the two concrete `Command` subclasses
(`CreateOrderCommand`, lines 203-215; `UpdateOrderCommand`,
lines 217-238). -/
inductive CommandSpec where
  | createCmd : String → Dict Value → CommandSpec
  | updateCmd : String → Dict Value → CommandSpec
deriving DecidableEq, Repr

/-- A command object: its constructor arguments plus the mutable
`previous_data` attribute of `UpdateOrderCommand` (initialised to `None`;
unused by `CreateOrderCommand`, for which it stays `None`). -/
structure CommandObj where
  spec : CommandSpec
  previous_data : Option (Dict Value)
deriving DecidableEq, Repr

/-- A freshly constructed command object. -/
def freshObj (s : CommandSpec) : CommandObj := ⟨s, none⟩

/-- `command.execute()`: result value, the (possibly mutated) command
object, and the new store.
`CreateOrderCommand.execute` saves unconditionally (overwriting any
existing record) and returns the save's `True`.
`UpdateOrderCommand.execute` first loads the current record into
`self.previous_data`; if that is truthy (a non-empty dict) it saves the
merged record and returns `True`, otherwise it returns `False` without
saving. -/
def execCmd (c : CommandObj) (r : InMemoryRepository) :
    Bool × CommandObj × InMemoryRepository :=
  match c.spec with
  | .createCmd oid d =>
      let sv := r.save ("order_" ++ oid) d
      (sv.1, c, sv.2)
  | .updateCmd oid updates =>
      match r.load ("order_" ++ oid) with
      | some p =>
          if p.isEmpty then (false, ⟨c.spec, some p⟩, r)
          else
            let sv := r.save ("order_" ++ oid) (AList.update p updates)
            (sv.1, ⟨c.spec, some p⟩, sv.2)
      | none => (false, ⟨c.spec, none⟩, r)

/-- `command.undo()`: result value and new store (neither command's `undo`
mutates the object).  `CreateOrderCommand.undo` deletes the key;
`UpdateOrderCommand.undo` re-saves `previous_data` when truthy, else
returns `False` without touching the store. -/
def undoCmd (c : CommandObj) (r : InMemoryRepository) :
    Bool × InMemoryRepository :=
  match c.spec with
  | .createCmd oid _ => r.delete ("order_" ++ oid)
  | .updateCmd oid _ =>
      match c.previous_data with
      | some p => if p.isEmpty then (false, r) else r.save ("order_" ++ oid) p
      | none => (false, r)

/-- `CommandManager` (lines 240-276): linear history plus an `Int` cursor
starting at `-1`.  Through the public API the cursor always stays in
`[-1, history.length - 1]`. -/
structure CommandManager where
  history : List CommandObj
  current_index : Int
deriving DecidableEq, Repr

/-- `CommandManager.execute_command` (lines 247-258): runs the command,
truncates the previously-undone suffix (`history[:current_index + 1]`),
appends the executed object, advances the cursor, and returns the
command's own result without inspecting it. -/
def execute_command (m : CommandManager) (r : InMemoryRepository)
    (c : CommandObj) : Bool × CommandManager × InMemoryRepository :=
  let e := execCmd c r
  (e.1,
   ⟨m.history.take (m.current_index + 1).toNat ++ [e.2.1],
    m.current_index + 1⟩,
   e.2.2)

/-- `CommandManager.undo` (lines 260-267): when the cursor is
non-negative, calls the current command's `undo()` (discarding its
result), steps the cursor back and returns `True`; else returns `False`.
`none` models the `IndexError` Python would raise if the cursor pointed
past the end of the history, which cannot happen through this API. -/
def mgrUndo (m : CommandManager) (r : InMemoryRepository) :
    Option (Bool × CommandManager × InMemoryRepository) :=
  if 0 ≤ m.current_index then
    match m.history[m.current_index.toNat]? with
    | some c => some (true, ⟨m.history, m.current_index - 1⟩, (undoCmd c r).2)
    | none => none
  else
    some (false, m, r)

/-- `CommandManager.redo` (lines 269-276): when a command exists after the
cursor, advances the cursor and re-runs that command's `execute()`
(mutating the stored object in place, hence the `List.set`), returning
`True`; else returns `False`. -/
def mgrRedo (m : CommandManager) (r : InMemoryRepository) :
    Option (Bool × CommandManager × InMemoryRepository) :=
  if m.current_index < (m.history.length : Int) - 1 then
    match m.history[(m.current_index + 1).toNat]? with
    | some c =>
        let e := execCmd c r
        some (true,
          ⟨m.history.set (m.current_index + 1).toNat e.2.1,
           m.current_index + 1⟩,
          e.2.2)
    | none => none
  else
    some (false, m, r)

/-- The store after executing one fresh command. -/
def stepRepo (r : InMemoryRepository) (s : CommandSpec) :
    InMemoryRepository :=
  (execCmd (freshObj s) r).2.2

/-- The store as if exactly the given commands had executed, in order,
each as a fresh object. -/
def execSpecs (r : InMemoryRepository) (ss : List CommandSpec) :
    InMemoryRepository :=
  List.foldl stepRepo r ss

/-- The history the manager accumulates while executing the given fresh
commands in order. -/
def buildHist : InMemoryRepository → List CommandSpec → List CommandObj
  | _, [] => []
  | r, s :: rest => (execCmd (freshObj s) r).2.1 :: buildHist (stepRepo r s) rest

/-- Run `execute_command` on a sequence of fresh commands. -/
def execList (mr : CommandManager × InMemoryRepository)
    (ss : List CommandSpec) : CommandManager × InMemoryRepository :=
  List.foldl
    (fun mr s =>
      ((execute_command mr.1 mr.2 (freshObj s)).2.1,
       (execute_command mr.1 mr.2 (freshObj s)).2.2))
    mr ss

/-- `n` successive `undo` calls. -/
def undoN : Nat → CommandManager × InMemoryRepository →
    Option (CommandManager × InMemoryRepository)
  | 0, mr => some mr
  | n + 1, mr =>
      match mgrUndo mr.1 mr.2 with
      | some e => undoN n (e.2.1, e.2.2)
      | none => none

/-- `n` successive `redo` calls. -/
def redoN : Nat → CommandManager × InMemoryRepository →
    Option (CommandManager × InMemoryRepository)
  | 0, mr => some mr
  | n + 1, mr =>
      match mgrRedo mr.1 mr.2 with
      | some e => redoN n (e.2.1, e.2.2)
      | none => none

/-- A command is invertible at the store it executes in: updates always
are, creates only when their key is absent (a create's undo deletes the
key outright, so a create that overwrote an existing record does not
restore it). -/
def safeAt (r : InMemoryRepository) : CommandSpec → Bool
  | .createCmd oid _ => (AList.get r.data ("order_" ++ oid)).isNone
  | .updateCmd _ _ => true

/-- Every command of the sequence is invertible at the store state it
actually executes in. -/
def safeSpecs : InMemoryRepository → List CommandSpec → Bool
  | _, [] => true
  | r, s :: rest => safeAt r s && safeSpecs (stepRepo r s) rest

/-- The `previous_data` captured by executing a fresh command at store
`r`. -/
def capturedPrev (r : InMemoryRepository) : CommandSpec → Option (Dict Value)
  | .createCmd _ _ => none
  | .updateCmd oid _ => r.load ("order_" ++ oid)

/-- What the file store holds under one key: a well-formed JSON record
file, or the unparseable partial file a failed `json.dump` leaves behind
(`open(key, "w")` truncates the file first and `json.dump` streams, so
raising mid-serialization leaves a strict prefix of a JSON document,
which never parses). -/
inductive FileContent where
  | good : Dict Value → FileContent
  | corrupt : FileContent
deriving DecidableEq, Repr

/-- `json.dump` serializes `None`, bools, ints, strings and string lists
field-for-field (and `json.load` parses them back identically), but
raises `TypeError` on an `OrderState` enum member. -/
def jsonSerializable : Value → Bool
  | .vstate _ => false
  | _ => true

/-- A record file round-trips exactly when every field value does. -/
def recordSerializable (d : Dict Value) : Bool :=
  d.all (fun p => jsonSerializable p.2)

/-- `FileRepository` (`advanced_patterns.py`, lines 150-186), modelled
over an explicit map from key to file content standing for the
`base_path` directory (`os`-level I/O failures are not modelled; the
deterministic failure mode is serialization). -/
structure FileRepository where
  files : Dict FileContent
deriving DecidableEq, Repr

namespace FileRepository

/-- `FileRepository.save` (lines 157-164): writes the record's JSON file
and returns `True`; a `TypeError` from `json.dump` is caught and reported
as `False`, with the truncated file left behind. -/
def save (r : FileRepository) (key : String) (d : Dict Value) :
    Bool × FileRepository :=
  if recordSerializable d then (true, ⟨AList.set r.files key (.good d)⟩)
  else (false, ⟨AList.set r.files key .corrupt⟩)

/-- `FileRepository.load` (lines 166-172): parses the key's file;
a missing or unparseable file is caught and reported as `None`. -/
def load (r : FileRepository) (key : String) : Option (Dict Value) :=
  match AList.get r.files key with
  | some (.good d) => some d
  | _ => none

/-- `FileRepository.delete` (lines 174-179): `os.remove` raises on a
missing file, caught and reported as `False`. -/
def delete (r : FileRepository) (key : String) : Bool × FileRepository :=
  match AList.get r.files key with
  | some _ => (true, ⟨AList.erase r.files key⟩)
  | none => (false, r)

/-- `FileRepository.list_keys` (lines 181-186). -/
def list_keys (r : FileRepository) : List String :=
  List.map Prod.fst r.files

end FileRepository

/-- A value inside an event's `data` dict: a scalar, or one nested order
record — the only payload shapes this repository's publishers build. -/
inductive PValue where
  | pv : Value → PValue
  | pdict : Dict Value → PValue
deriving DecidableEq, Repr

/-- `Event` (`event_driven_state.py`, lines 43-48).  Payload dicts are
embedded by value; the source shares the mutable order dict between the
publisher and the history, an aliasing no property below observes. -/
structure Event where
  event_type : EventType
  data : AList String PValue
  source : String
  timestamp : String := "2024-01-01T00:00:00Z"
deriving DecidableEq, Repr

/-- `EventBus` (`event_driven_state.py`, lines 50-79): callbacks per event
type — named here by abstract handler ids — and the append-only event
history. -/
structure EventBus where
  listeners : AList EventType (List Nat)
  event_history : List Event
deriving DecidableEq, Repr

namespace EventBus

/-- `EventBus.subscribe` (lines 60-64): appends the handler to the type's
callback list, creating the list on first use. -/
def subscribe (bus : EventBus) (t : EventType) (h : Nat) : EventBus :=
  match AList.get bus.listeners t with
  | none => ⟨AList.set bus.listeners t [h], bus.event_history⟩
  | some l => ⟨AList.set bus.listeners t (l ++ [h]), bus.event_history⟩

/-- The dispatch loop of `publish` (lines 71-75): runs the callbacks in
order; `beh h e s` is handler `h`'s effect on the ambient state `σ`
together with whether it raised; a raise is caught by the `try/except`
and the loop continues.  Returns the final ambient state and the call log
`(handler, raised?)` in invocation order. -/
def runHandlers {σ : Type} (beh : Nat → Event → σ → σ × Bool) (e : Event) :
    List Nat → σ → σ × List (Nat × Bool)
  | [], s => (s, [])
  | h :: rest, s =>
      let r1 := beh h e s
      let r2 := runHandlers beh e rest r1.1
      (r2.1, (h, r1.2) :: r2.2)

/-- `EventBus.publish` (lines 66-75), for handlers whose effects live in
an ambient state `σ` (the handlers of this file mutate the reactive state,
not the bus's listener table): the event is appended to the history, then
every handler registered for its type runs, in registration order, inside
`try/except` — a raising handler is logged and dispatch continues, and
the call itself always returns normally. -/
def publish {σ : Type} (beh : Nat → Event → σ → σ × Bool) (bus : EventBus)
    (e : Event) (s : σ) : EventBus × σ × List (Nat × Bool) :=
  let bus1 : EventBus := ⟨bus.listeners, bus.event_history ++ [e]⟩
  match AList.get bus.listeners e.event_type with
  | none => (bus1, s, [])
  | some hs =>
      let r := runHandlers beh e hs s
      (bus1, r.1, r.2)

/-- `EventBus.get_recent_events` (lines 77-79): Python's
`history[-limit:]` — for positive `limit` the last `limit` events, but
for `limit = 0` the slice is `[-0:] = [0:]`, the whole history. -/
def get_recent_events (bus : EventBus) (limit : Nat) : List Event :=
  if limit = 0 then bus.event_history
  else bus.event_history.drop (bus.event_history.length - limit)

end EventBus

/-- One entry of `state_history` (`global_state.py`, `_log_state_change`,
lines 126-133): a dict with the fixed keys `action`, `target`, `details`,
`timestamp`; `target` is an order id or an items list, `details` an
updates dict or `None`. -/
structure LogEntry where
  action : String
  target : Value
  details : Option (Dict Value)
  timestamp : String := "2024-01-01T00:00:00Z"
deriving DecidableEq, Repr

/-- `OrderStateManager` (`global_state.py`, lines 33-48). -/
structure OrderStateManager where
  orders : Dict (Dict Value)
  current_order_id : Option String
  inventory : Dict Int
  state_history : List LogEntry
deriving DecidableEq, Repr

namespace OrderStateManager

/-- The manager's initial state (lines 39-48). -/
def init : OrderStateManager :=
  ⟨[], none,
   [("laptop", 10), ("mouse", 50), ("keyboard", 30), ("monitor", 15)],
   []⟩

/-- `OrderStateManager.create_order` (lines 50-67): builds the fresh
record, stores it under `order_id` — overwriting any existing order with
that id, there is no duplicate check — makes it current, logs, and
returns the record. -/
def create_order (m : OrderStateManager) (order_id customer_id : String)
    (items : List String) : Dict Value × OrderStateManager :=
  let order : Dict Value :=
    [("order_id", .vstr order_id),
     ("customer_id", .vstr customer_id),
     ("items", .vstrList items),
     ("status", .vstr "created"),
     ("total", .vint 0),
     ("payment_status", .vstr "pending"),
     ("inventory_checked", .vbool false),
     ("shipping_status", .vstr "not_shipped"),
     ("created_at", .vstr "2024-01-01T00:00:00Z")]
  (order,
   ⟨AList.set m.orders order_id order,
    some order_id,
    m.inventory,
    m.state_history ++
      [{ action := "order_created", target := .vstr order_id,
         details := none }]⟩)

/-- `OrderStateManager.reserve_inventory` (lines 103-115): first checks
that every requested item currently has positive quantity (the check
reads the pre-reservation quantity and does not account for duplicate
occurrences in `items`), then decrements one unit per occurrence.  After
the check every decremented key is present, so the `getD 0` default is
never taken. -/
def reserve_inventory (m : OrderStateManager) (items : List String) :
    Bool × OrderStateManager :=
  if items.all (fun item =>
      match AList.get m.inventory item with
      | some q => q > 0
      | none => false) then
    (true,
     { m with
        inventory := List.foldl
          (fun inv item => AList.set inv item ((AList.get inv item).getD 0 - 1))
          m.inventory items,
        state_history := m.state_history ++
          [{ action := "inventory_reserved", target := .vstrList items,
             details := none }] })
  else (false, m)

end OrderStateManager

/-- `ReactiveOrderState` (`event_driven_state.py`, lines 81-265) composed
with the one `EventBus` the file wires it to: `_setup_event_listeners`
(lines 102-115) subscribes `_on_inventory_checked` then
`_check_low_inventory` to `INVENTORY_CHECKED`, `_on_payment_processed` to
`PAYMENT_PROCESSED`, and `_on_order_shipped` to `ORDER_SHIPPED`; no
listener is ever registered for the other event types, so publishing them
only appends to the history. -/
structure ReactiveOrderState where
  orders : Dict (Dict Value)
  current_order_id : Option String
  inventory : Dict Int
  notifications : List String
  event_history : List Event
deriving DecidableEq, Repr

namespace ReactiveOrderState

/-- Initial reactive state (lines 87-97). -/
def init : ReactiveOrderState :=
  ⟨[], none,
   [("laptop", 5), ("mouse", 20), ("keyboard", 15), ("monitor", 8)],
   [], []⟩

/-- Replace the order collection, keeping every other field. -/
def withOrders (w : ReactiveOrderState) (os : Dict (Dict Value)) :
    ReactiveOrderState :=
  { w with orders := os }

/-- `_on_inventory_checked` (lines 235-243).  The handler reads
`data["order_id"]` and `data["available"]` before appending anything, so
a lookup failure raises into the bus's `try/except` with no effect —
the fall-through branch. -/
def on_inventory_checked (w : ReactiveOrderState) (e : Event) :
    ReactiveOrderState :=
  match AList.get e.data "order_id", AList.get e.data "available" with
  | some (.pv (.vstr oid)), some (.pv (.vbool avail)) =>
      if avail then
        { w with notifications := w.notifications ++
            ["Inventory confirmed for order " ++ oid] }
      else
        { w with notifications := w.notifications ++
            ["Inventory insufficient for order " ++ oid] }
  | _, _ => w

/-- `_on_payment_processed` (lines 245-248). -/
def on_payment_processed (w : ReactiveOrderState) (e : Event) :
    ReactiveOrderState :=
  match AList.get e.data "order_id" with
  | some (.pv (.vstr oid)) =>
      { w with notifications := w.notifications ++
          ["Payment processed for order " ++ oid ++
           " - preparing for shipment"] }
  | _ => w

/-- `_on_order_shipped` (lines 250-255): looks the order up again; a
falsy (missing or empty) record skips the notification, and a record
without a string `customer_id` raises into the bus's `try/except`
before appending. -/
def on_order_shipped (w : ReactiveOrderState) (e : Event) :
    ReactiveOrderState :=
  match AList.get e.data "order_id" with
  | some (.pv (.vstr oid)) =>
      match AList.get w.orders oid with
      | some order =>
          if order.isEmpty then w
          else
            match AList.get order "customer_id" with
            | some (.vstr cust) =>
                { w with notifications := w.notifications ++
                    ["Order " ++ oid ++ " shipped to customer " ++ cust] }
            | _ => w
      | none => w
  | _ => w

/-- `_check_low_inventory` (lines 257-265): publishes an `INVENTORY_LOW`
event per item at quantity ≤ 2; nothing subscribes to `INVENTORY_LOW`,
so each nested publish only appends to the history. -/
def check_low_inventory (w : ReactiveOrderState) : ReactiveOrderState :=
  List.foldl
    (fun acc p =>
      if p.2 ≤ 2 then
        { acc with event_history := acc.event_history ++
            [{ event_type := .INVENTORY_LOW,
               data := [("item", .pv (.vstr p.1)),
                        ("quantity", .pv (.vint p.2))],
               source := "inventory_monitor" }] }
      else acc)
    w w.inventory

/-- The composed `event_bus.publish` under this file's wiring: append the
event to the history, then run the subscribed bound methods in
registration order (their failures are caught at the bus boundary inside
the handler embeddings above). -/
def rpublish (w : ReactiveOrderState) (e : Event) : ReactiveOrderState :=
  let w1 := { w with event_history := w.event_history ++ [e] }
  match e.event_type with
  | .INVENTORY_CHECKED => check_low_inventory (on_inventory_checked w1 e)
  | .PAYMENT_PROCESSED => on_payment_processed w1 e
  | .ORDER_SHIPPED => on_order_shipped w1 e
  | _ => w1

/-- `ReactiveOrderState.create_order` (lines 117-140). -/
def create_order (w : ReactiveOrderState) (order_id customer_id : String)
    (items : List String) (source : String) :
    Dict Value × ReactiveOrderState :=
  let order : Dict Value :=
    [("order_id", .vstr order_id),
     ("customer_id", .vstr customer_id),
     ("items", .vstrList items),
     ("status", .vstr "created"),
     ("total", .vint 0),
     ("payment_status", .vstr "pending"),
     ("inventory_checked", .vbool false),
     ("shipping_status", .vstr "not_shipped")]
  let w1 := { w with orders := AList.set w.orders order_id order,
                     current_order_id := some order_id }
  (order,
   rpublish w1
     { event_type := .ORDER_CREATED, data := [("order", .pdict order)],
       source := source })

/-- The availability loop of `check_inventory` (lines 148-158): price is
`len(item) * 10`; stops at the first item that is missing from the
inventory or out of stock; quantities are only read, never decremented. -/
def invCheckLoop (inv : Dict Int) : List String → Int → Int × Bool
  | [], total => (total, true)
  | item :: rest, total =>
      match AList.get inv item with
      | some q =>
          if q > 0 then
            invCheckLoop inv rest (total + (item.length : Int) * 10)
          else (total, false)
      | none => (total, false)

/-- `ReactiveOrderState.check_inventory` (lines 142-185).  `none` models
the uncaught error on a record without a proper `"items"` list (records
built by `create_order` always have one).  `inventory_checked` is set
`True` before the availability branch; on success `total` and `status`
are set and a success event published; on failure only `status` is set
(to `"inventory_insufficient"`, leaving `total` alone) and a failure
event is published with `available = False`. -/
def check_inventory (w : ReactiveOrderState) (order_id source : String) :
    Option (Dict Value × ReactiveOrderState) :=
  match AList.get w.orders order_id with
  | none => some ([("error", .vstr "Order not found")], w)
  | some order =>
      if order.isEmpty then some ([("error", .vstr "Order not found")], w)
      else
        match AList.get order "items" with
        | some (.vstrList items) =>
            let r := invCheckLoop w.inventory items 0
            let order1 := AList.set order "inventory_checked" (.vbool true)
            if r.2 then
              let order2 := AList.set (AList.set order1 "total" (.vint r.1))
                "status" (.vstr "inventory_confirmed")
              let w1 := { w with orders := AList.set w.orders order_id order2 }
              some ([("success", .vbool true), ("total", .vint r.1)],
                rpublish w1
                  { event_type := .INVENTORY_CHECKED,
                    data := [("order_id", .pv (.vstr order_id)),
                             ("total", .pv (.vint r.1)),
                             ("available", .pv (.vbool true))],
                    source := source })
            else
              let order2 := AList.set order1 "status"
                (.vstr "inventory_insufficient")
              let w1 := { w with orders := AList.set w.orders order_id order2 }
              some ([("error", .vstr "Insufficient inventory")],
                rpublish w1
                  { event_type := .INVENTORY_CHECKED,
                    data := [("order_id", .pv (.vstr order_id)),
                             ("total", .pv (.vint 0)),
                             ("available", .pv (.vbool false))],
                    source := source })
        | _ => none

/-- `ReactiveOrderState.process_payment` (lines 187-203): requires only
that the order exists (truthy) and `inventory_checked` is truthy — not
that the inventory was sufficient.  `none` models the uncaught `KeyError`
on a record lacking `"inventory_checked"` or `"total"`. -/
def process_payment (w : ReactiveOrderState) (order_id source : String) :
    Option (Dict Value × ReactiveOrderState) :=
  match AList.get w.orders order_id with
  | none => some ([("error", .vstr "Cannot process payment")], w)
  | some order =>
      if order.isEmpty then some ([("error", .vstr "Cannot process payment")], w)
      else
        match AList.get order "inventory_checked" with
        | none => none
        | some v =>
            if pyTruthy v = false then
              some ([("error", .vstr "Cannot process payment")], w)
            else
              let order1 := AList.set
                (AList.set order "payment_status" (.vstr "paid"))
                "status" (.vstr "payment_confirmed")
              match AList.get order1 "total" with
              | none => none
              | some tv =>
                  let w1 := { w with
                    orders := AList.set w.orders order_id order1 }
                  some ([("success", .vbool true), ("amount", tv)],
                    rpublish w1
                      { event_type := .PAYMENT_PROCESSED,
                        data := [("order_id", .pv (.vstr order_id)),
                                 ("amount", .pv tv)],
                        source := source })

/-- `ReactiveOrderState.ship_order` (lines 205-232): requires
`payment_status == "paid"`; decrements the inventory one unit per item
occurrence with a per-decrement guard (`item in inventory and
inventory[item] > 0`), sets the shipping fields and publishes
`ORDER_SHIPPED` then `ORDER_COMPLETED`. -/
def ship_order (w : ReactiveOrderState) (order_id source : String) :
    Option (Dict Value × ReactiveOrderState) :=
  match AList.get w.orders order_id with
  | none => some ([("error", .vstr "Cannot ship order")], w)
  | some order =>
      if order.isEmpty then some ([("error", .vstr "Cannot ship order")], w)
      else
        match AList.get order "payment_status" with
        | none => none
        | some pv =>
            if pv ≠ Value.vstr "paid" then
              some ([("error", .vstr "Cannot ship order")], w)
            else
              match AList.get order "items" with
              | some (.vstrList items) =>
                  let inv1 := List.foldl
                    (fun (inv : Dict Int) (item : String) =>
                      match AList.get inv item with
                      | some q =>
                          if q > 0 then AList.set inv item (q - 1) else inv
                      | none => inv)
                    w.inventory items
                  let order1 := AList.set
                    (AList.set order "shipping_status" (.vstr "shipped"))
                    "status" (.vstr "completed")
                  let w1 := { w with
                                inventory := inv1,
                                orders := AList.set w.orders order_id order1 }
                  let w2 := rpublish w1
                    { event_type := .ORDER_SHIPPED,
                      data := [("order_id", .pv (.vstr order_id))],
                      source := source }
                  let w3 := rpublish w2
                    { event_type := .ORDER_COMPLETED,
                      data := [("order", .pdict order1)],
                      source := source }
                  some ([("success", .vbool true)], w3)
              | _ => none

end ReactiveOrderState

/-- The `customer_id` field of the order stored under `oid`, when any. -/
def customerOf (orders : Dict (Dict Value)) (oid : String) : Option Value :=
  match AList.get orders oid with
  | some o => AList.get o "customer_id"
  | none => none

/-! ### Association-list lemmas -/

namespace AList

variable {κ α : Type} [DecidableEq κ]

@[simp] theorem get_nil (k : κ) : get ([] : AList κ α) k = none := rfl

theorem get_set_self (d : AList κ α) (k : κ) (v : α) :
    get (set d k v) k = some v := by
  induction d with
  | nil => simp [get, set]
  | cons p rest ih =>
      by_cases h : p.1 = k
      · simp [get, set, h]
      · simp [get, set, h, ih]

theorem get_set_ne (d : AList κ α) (k k' : κ) (v : α) (h : k ≠ k') :
    get (set d k v) k' = get d k' := by
  induction d with
  | nil => simp [get, set, h]
  | cons p rest ih =>
      by_cases hp : p.1 = k
      · simp [get, set, hp, h]
      · simp only [set, if_neg hp]
        by_cases hp' : p.1 = k'
        · simp [get, hp']
        · simp [get, hp', ih]

/-- Writing back the value a key already holds is a no-op. -/
theorem set_get_self (d : AList κ α) (k : κ) (v : α) (h : get d k = some v) :
    set d k v = d := by
  induction d with
  | nil => simp [get] at h
  | cons p rest ih =>
      by_cases hp : p.1 = k
      · simp only [get, if_pos hp] at h
        cases h
        subst hp
        simp [set]
      · simp only [get, if_neg hp] at h
        simp only [set, if_neg hp, ih h]

theorem set_set_self (d : AList κ α) (k : κ) (v w : α) :
    set (set d k v) k w = set d k w := by
  induction d with
  | nil => simp [set]
  | cons p rest ih =>
      by_cases hp : p.1 = k
      · subst hp
        simp [set]
      · simp only [set, if_neg hp, ih]

theorem erase_of_get_none (d : AList κ α) (k : κ) (h : get d k = none) :
    erase d k = d := by
  induction d with
  | nil => rfl
  | cons p rest ih =>
      by_cases hp : p.1 = k
      · simp [get, hp] at h
      · simp only [get, if_neg hp] at h
        simp only [erase, if_neg hp, ih h]

theorem erase_append (d d' : AList κ α) (k : κ) :
    erase (d ++ d') k = erase d k ++ erase d' k := by
  induction d with
  | nil => rfl
  | cons p rest ih =>
      by_cases hp : p.1 = k
      · simp [erase, hp, ih]
      · simp [erase, hp, ih]

/-- If `k` is unbound in `d`, `set` appends the new binding at the end. -/
theorem set_eq_append_of_get_none (d : AList κ α) (k : κ) (v : α)
    (h : get d k = none) : set d k v = d ++ [(k, v)] := by
  induction d with
  | nil => rfl
  | cons p rest ih =>
      by_cases hp : p.1 = k
      · simp [get, hp] at h
      · simp only [get, if_neg hp] at h
        simp [set, hp, ih h]

/-- A dict that has just been written to is never the empty (falsy) dict. -/
theorem set_isEmpty (d : AList κ α) (k : κ) (v : α) :
    (set d k v).isEmpty = false := by
  cases d with
  | nil => rfl
  | cons p rest => by_cases hp : p.1 = k <;> simp [set, hp]

/-- Updating with a dict that does not bind `k` leaves `k`'s value alone. -/
theorem get_update_of_get_none (d u : AList κ α) (k : κ)
    (h : get u k = none) : get (update d u) k = get d k := by
  induction u generalizing d with
  | nil => rfl
  | cons p rest ih =>
      by_cases hp : p.1 = k
      · simp [get, hp] at h
      · simp only [get, if_neg hp] at h
        simp only [update, List.foldl_cons]
        have := ih (set d p.1 p.2) h
        simp only [update] at this
        rw [this, get_set_ne _ _ _ _ hp]

end AList

/-! ### State-machine lemmas -/

theorem stateOf_eq_some_iff (m : OrderStateMachine) (oid : String)
    (s : OrderState) :
    stateOf m oid = some s ↔
      ∃ order, AList.get m.orders oid = some order ∧
        AList.get order "state" = some (.vstate s) := by
  unfold stateOf
  cases hord : AList.get m.orders oid with
  | none => simp
  | some order =>
      cases hst : AList.get order "state" with
      | none => simp [hst]
      | some v => cases v <;> simp [hst]

/-- A machine write at one key leaves every other order's state alone. -/
theorem stateOf_set_ne (m : OrderStateMachine) (oid' oid : String)
    (rec : Dict Value) (h : oid' ≠ oid) :
    stateOf ⟨AList.set m.orders oid' rec⟩ oid = stateOf m oid := by
  unfold stateOf
  rw [show (⟨AList.set m.orders oid' rec⟩ : OrderStateMachine).orders =
      AList.set m.orders oid' rec from rfl]
  rw [AList.get_set_ne _ _ _ _ h]

/-- `create_order` either leaves the machine alone or writes the fresh
record under the created order id. -/
theorem create_order_snd_cases (m : OrderStateMachine) (oid' cid : String)
    (items : List String) :
    (m.create_order oid' cid items).2 = m ∨
      ∃ rec, (m.create_order oid' cid items).2 = ⟨AList.set m.orders oid' rec⟩ := by
  cases hget : AList.get m.orders oid' with
  | none =>
      right
      refine ⟨[("order_id", .vstr oid'), ("customer_id", .vstr cid),
        ("items", .vstrList items), ("state", .vstate .CREATED),
        ("total", .vint 0)], ?_⟩
      simp only [OrderStateMachine.create_order, hget]
  | some order =>
      left
      simp only [OrderStateMachine.create_order, hget]

/-- On a missing edge, `transition_to` raises with the `(from, to)` pair
and leaves the machine untouched. -/
theorem transition_to_not_mem_eq (m : OrderStateMachine)
    (order_id : String) (order : Dict Value) (cs target : OrderState)
    (data : Option (Dict Value))
    (hord : AList.get m.orders order_id = some order)
    (hst : AList.get order "state" = some (.vstate cs))
    (hnot : target ∉ VALID_TRANSITIONS cs) :
    m.transition_to order_id target data =
      (.invalidTransition cs target, m) := by
  simp only [OrderStateMachine.transition_to, hord, hst, if_neg hnot]

/-- On a listed edge, `transition_to` returns `True` and stores exactly
the transitioned record. -/
theorem transition_to_mem_eq (m : OrderStateMachine)
    (order_id : String) (order : Dict Value) (cs target : OrderState)
    (data : Option (Dict Value))
    (hord : AList.get m.orders order_id = some order)
    (hst : AList.get order "state" = some (.vstate cs))
    (hmem : target ∈ VALID_TRANSITIONS cs) :
    m.transition_to order_id target data =
      (.ok true,
       ⟨AList.set m.orders order_id (transitionedRecord order target data)⟩) := by
  simp only [OrderStateMachine.transition_to, hord, hst, if_pos hmem]
  cases data with
  | none => rfl
  | some d =>
      by_cases hd : d.isEmpty <;>
        simp [transitionedRecord, hd]

/-- When the merged extra fields do not bind `"state"`, the transitioned
record's state field is the target. -/
theorem get_state_transitionedRecord (order : Dict Value)
    (target : OrderState) (data : Option (Dict Value))
    (hnostate : ∀ d, data = some d → AList.get d "state" = none) :
    AList.get (transitionedRecord order target data) "state" =
      some (.vstate target) := by
  unfold transitionedRecord
  cases data with
  | none => exact AList.get_set_self _ _ _
  | some d =>
      by_cases hd : d.isEmpty
      · simp only [if_pos hd]
        exact AList.get_set_self _ _ _
      · simp only [if_neg hd]
        rw [AList.get_update_of_get_none _ _ _ (hnostate d rfl)]
        exact AList.get_set_self _ _ _

/-- `transition_to` either leaves the machine alone or rewrites exactly the
record stored under the transitioned order id. -/
theorem transition_to_snd_cases (m : OrderStateMachine) (oid' : String)
    (t : OrderState) (d : Option (Dict Value)) :
    (m.transition_to oid' t d).2 = m ∨
      ∃ rec, (m.transition_to oid' t d).2 = ⟨AList.set m.orders oid' rec⟩ := by
  cases hget : AList.get m.orders oid' with
  | none =>
      left
      simp only [OrderStateMachine.transition_to, hget]
  | some order =>
      cases hst : AList.get order "state" with
      | none =>
          left
          simp only [OrderStateMachine.transition_to, hget, hst]
      | some v =>
          cases v with
          | vstate cs =>
              by_cases hmem : t ∈ VALID_TRANSITIONS cs
              · right
                refine ⟨transitionedRecord order t d, ?_⟩
                rw [transition_to_mem_eq m oid' order cs t d hget hst hmem]
              · left
                rw [transition_to_not_mem_eq m oid' order cs t d hget hst hmem]
          | vnone =>
              left
              simp only [OrderStateMachine.transition_to, hget, hst]
          | vbool b =>
              left
              simp only [OrderStateMachine.transition_to, hget, hst]
          | vint z =>
              left
              simp only [OrderStateMachine.transition_to, hget, hst]
          | vstr str =>
              left
              simp only [OrderStateMachine.transition_to, hget, hst]
          | vstrList l =>
              left
              simp only [OrderStateMachine.transition_to, hget, hst]

/-- One API call moves an order's state only along the transition table
(`create` of an existing id is refused, `get` is pure, and `transition`
either raises leaving the machine alone or advances along a listed edge),
provided the call's extra fields do not themselves bind `"state"`; and a
terminal state is never left. -/
theorem applyOp_state_step (m : OrderStateMachine) (oid : String) (op : Op)
    (s : OrderState) (hs : stateOf m oid = some s)
    (hdata : ∀ oid' t d, op = .transition oid' t (some d) →
      AList.get d "state" = none) :
    ∃ s', stateOf (applyOp m op) oid = some s' ∧
      (s' = s ∨ s' ∈ VALID_TRANSITIONS s) ∧
      ((s = .COMPLETED ∨ s = .CANCELLED) → s' = s) := by
  obtain ⟨order, hord, hst⟩ := (stateOf_eq_some_iff m oid s).1 hs
  cases op with
  | getOrder oid' => exact ⟨s, hs, Or.inl rfl, fun _ => rfl⟩
  | create oid' cid items =>
      by_cases hoid : oid' = oid
      · subst hoid
        have : (m.create_order oid' cid items).2 = m := by
          unfold OrderStateMachine.create_order
          rw [hord]
        refine ⟨s, ?_, Or.inl rfl, fun _ => rfl⟩
        show stateOf (m.create_order oid' cid items).2 oid' = some s
        rw [this, hs]
      · rcases create_order_snd_cases m oid' cid items with hsame | ⟨rec, hset⟩
        · refine ⟨s, ?_, Or.inl rfl, fun _ => rfl⟩
          show stateOf (m.create_order oid' cid items).2 oid = some s
          rw [hsame, hs]
        · refine ⟨s, ?_, Or.inl rfl, fun _ => rfl⟩
          show stateOf (m.create_order oid' cid items).2 oid = some s
          rw [hset, stateOf_set_ne m oid' oid rec hoid, hs]
  | transition oid' t d =>
      by_cases hoid : oid' = oid
      · subst hoid
        by_cases hmem : t ∈ VALID_TRANSITIONS s
        · have heq := transition_to_mem_eq m oid' order s t d hord hst hmem
          refine ⟨t, ?_, Or.inr hmem, ?_⟩
          · show stateOf (m.transition_to oid' t d).2 oid' = some t
            rw [heq]
            rw [stateOf_eq_some_iff]
            exact ⟨transitionedRecord order t d, AList.get_set_self _ _ _,
              get_state_transitionedRecord order t d
                (fun dd hdd => hdata oid' t dd (by rw [hdd]))⟩
          · intro hterm
            exfalso
            rcases hterm with h | h <;> (subst h; simp [VALID_TRANSITIONS] at hmem)
        · have heq := transition_to_not_mem_eq m oid' order s t d hord hst hmem
          refine ⟨s, ?_, Or.inl rfl, fun _ => rfl⟩
          show stateOf (m.transition_to oid' t d).2 oid' = some s
          rw [heq, hs]
      · rcases transition_to_snd_cases m oid' t d with hsame | ⟨rec, hset⟩
        · refine ⟨s, ?_, Or.inl rfl, fun _ => rfl⟩
          show stateOf (m.transition_to oid' t d).2 oid = some s
          rw [hsame, hs]
        · refine ⟨s, ?_, Or.inl rfl, fun _ => rfl⟩
          show stateOf (m.transition_to oid' t d).2 oid = some s
          rw [hset, stateOf_set_ne m oid' oid rec hoid, hs]

/-- C2 counterexample: passing `extra_fields` that themselves bind
`"state"` lets a single legal-looking `transition_to` move an order from
`CREATED` straight to `COMPLETED`, an edge the table does not declare
(neither from `CREATED` nor from the nominally targeted
`INVENTORY_CHECKED`), so the claim quantified over arbitrary extra fields
fails on the code. -/
theorem C2_counterexample :
    stateOf (run ⟨[]⟩ [Op.create "o1" "c1" ["laptop"]]) "o1" =
        some .CREATED ∧
    stateOf (run ⟨[]⟩ [Op.create "o1" "c1" ["laptop"],
        Op.transition "o1" .INVENTORY_CHECKED
          (some [("state", .vstate .COMPLETED)])]) "o1" =
        some .COMPLETED ∧
    OrderState.COMPLETED ∉ VALID_TRANSITIONS .CREATED ∧
    OrderState.COMPLETED ∉ VALID_TRANSITIONS .INVENTORY_CHECKED := by
  decide

/-- C2 (amended): for every order and every sequence of `create`,
`transition` and `get` calls whose `transition` extra fields never bind the
key `"state"`, the order's state field only ever changes along an edge
declared legal by `VALID_TRANSITIONS`, and once the state is `COMPLETED`
or `CANCELLED` no operation changes it again. -/
theorem C2_state_changes_follow_table (m0 : OrderStateMachine)
    (ops : List Op) (oid : String) (i : Nat) (s s' : OrderState)
    (hdata : ∀ op ∈ ops, ∀ oid' t d, op = Op.transition oid' t (some d) →
      AList.get d "state" = none)
    (hi : stateOf (run m0 (ops.take i)) oid = some s)
    (hi' : stateOf (run m0 (ops.take (i+1))) oid = some s') :
    (s' = s ∨ s' ∈ VALID_TRANSITIONS s) ∧
      ((s = .COMPLETED ∨ s = .CANCELLED) → s' = s) := by
  by_cases hlen : i < ops.length
  · obtain ⟨op, hop⟩ : ∃ op, ops[i]? = some op :=
      ⟨ops[i], List.getElem?_eq_getElem hlen⟩
    have hmem : op ∈ ops := List.getElem?_mem hop
    have htake : ops.take (i+1) = ops.take i ++ [op] := by
      rw [List.take_succ, hop]
      rfl
    rw [htake] at hi'
    have hrun : run m0 (ops.take i ++ [op]) =
        applyOp (run m0 (ops.take i)) op := by
      unfold run
      rw [List.foldl_append]
      rfl
    rw [hrun] at hi'
    obtain ⟨s'', h1, h2, h3⟩ := applyOp_state_step (run m0 (ops.take i)) oid
      op s hi (fun oid' t d hop' => hdata op hmem oid' t d hop')
    rw [h1] at hi'
    cases hi'
    exact ⟨h2, h3⟩
  · have htake : ops.take (i+1) = ops.take i := by
      rw [List.take_of_length_le (by omega), List.take_of_length_le (by omega)]
    rw [htake, hi] at hi'
    cases hi'
    exact ⟨Or.inl rfl, fun _ => rfl⟩

/-- Witness for C2 (amended) at a concrete input: one legal transition of
the freshly created order `"o1"` from `CREATED` to `INVENTORY_CHECKED`. -/
theorem C2_state_changes_follow_table_witness :
    (OrderState.INVENTORY_CHECKED = OrderState.CREATED ∨
      OrderState.INVENTORY_CHECKED ∈ VALID_TRANSITIONS .CREATED) ∧
    ((OrderState.CREATED = OrderState.COMPLETED ∨
      OrderState.CREATED = OrderState.CANCELLED) →
      OrderState.INVENTORY_CHECKED = OrderState.CREATED) := by
  exact C2_state_changes_follow_table
    ((⟨[]⟩ : OrderStateMachine).create_order "o1" "c1" ["laptop"]).2
    [Op.transition "o1" .INVENTORY_CHECKED none] "o1" 0
    .CREATED .INVENTORY_CHECKED
    (by
      intro op hop oid' t d heq
      simp only [List.mem_singleton] at hop
      subst hop
      simp at heq)
    (by decide) (by decide)

/-- C1: for an order present in the machine whose record carries a state
member, `transition_to` on an edge absent from `VALID_TRANSITIONS` raises
`ValueError` carrying the attempted `(from, to)` pair and leaves the whole
machine (hence the order's record) unchanged; along a listed edge it
returns `True` and rewrites the record by assigning `"state" := target`
and then merging the extra fields, so in particular, when the extra fields
do not themselves bind `"state"`, the state field has advanced to the
target. -/
theorem C1_transition_validates_table (m : OrderStateMachine)
    (order_id : String) (order : Dict Value) (cs target : OrderState)
    (data : Option (Dict Value))
    (hord : AList.get m.orders order_id = some order)
    (hst : AList.get order "state" = some (.vstate cs)) :
    (target ∉ VALID_TRANSITIONS cs →
      m.transition_to order_id target data =
        (.invalidTransition cs target, m)) ∧
    (target ∈ VALID_TRANSITIONS cs →
      m.transition_to order_id target data =
        (.ok true,
         ⟨AList.set m.orders order_id (transitionedRecord order target data)⟩) ∧
      (∀ d, data = some d → AList.get d "state" = none →
        stateOf (m.transition_to order_id target data).2 order_id =
          some target) ∧
      (data = none →
        stateOf (m.transition_to order_id target data).2 order_id =
          some target)) := by
  constructor
  · intro hnot
    exact transition_to_not_mem_eq m order_id order cs target data hord hst hnot
  · intro hmem
    have heq := transition_to_mem_eq m order_id order cs target data hord hst hmem
    refine ⟨heq, ?_, ?_⟩
    · intro d hdata hnostate
      rw [heq]
      rw [stateOf_eq_some_iff]
      exact ⟨transitionedRecord order target data, AList.get_set_self _ _ _,
        get_state_transitionedRecord order target data
          (fun dd hdd => by
            rw [hdata] at hdd
            cases hdd
            exact hnostate)⟩
    · intro hdata
      rw [heq]
      rw [stateOf_eq_some_iff]
      exact ⟨transitionedRecord order target data, AList.get_set_self _ _ _,
        get_state_transitionedRecord order target data
          (fun dd hdd => by rw [hdata] at hdd; cases hdd)⟩

/-- Witness for C1 at a concrete input: on the machine holding the single
freshly created order `"o1"` (state `CREATED`), transitioning to
`COMPLETED` is not in the table and raises `ValueError(CREATED, COMPLETED)`
leaving the machine unchanged. -/
theorem C1_transition_validates_table_witness :
    ((⟨[]⟩ : OrderStateMachine).create_order "o1" "c7" ["laptop"]).2.transition_to
        "o1" .COMPLETED none =
      (.invalidTransition .CREATED .COMPLETED,
       ((⟨[]⟩ : OrderStateMachine).create_order "o1" "c7" ["laptop"]).2) := by
  exact (C1_transition_validates_table
    ((⟨[]⟩ : OrderStateMachine).create_order "o1" "c7" ["laptop"]).2
    "o1"
    [("order_id", .vstr "o1"), ("customer_id", .vstr "c7"),
     ("items", .vstrList ["laptop"]), ("state", .vstate .CREATED),
     ("total", .vint 0)]
    .CREATED .COMPLETED none (by decide) (by decide)).1 (by decide)

/-! ### Command-pattern lemmas -/

theorem execCmd_create_eq (oid : String) (d : Dict Value)
    (q : Option (Dict Value)) (r : InMemoryRepository) :
    execCmd ⟨.createCmd oid d, q⟩ r =
      (true, ⟨.createCmd oid d, q⟩,
       ⟨AList.set r.data ("order_" ++ oid) d⟩) := rfl

theorem execCmd_update_eq (oid : String) (u : Dict Value)
    (q : Option (Dict Value)) (r : InMemoryRepository) :
    execCmd ⟨.updateCmd oid u, q⟩ r =
      match r.load ("order_" ++ oid) with
      | some p =>
          if p.isEmpty then (false, ⟨.updateCmd oid u, some p⟩, r)
          else (true, ⟨.updateCmd oid u, some p⟩,
            ⟨AList.set r.data ("order_" ++ oid) (AList.update p u)⟩)
      | none => (false, ⟨.updateCmd oid u, none⟩, r) := rfl

theorem undoCmd_create_eq (oid : String) (d : Dict Value)
    (q : Option (Dict Value)) (r : InMemoryRepository) :
    undoCmd ⟨.createCmd oid d, q⟩ r = r.delete ("order_" ++ oid) := rfl

theorem undoCmd_update_eq (oid : String) (u : Dict Value)
    (q : Option (Dict Value)) (r : InMemoryRepository) :
    undoCmd ⟨.updateCmd oid u, q⟩ r =
      match q with
      | some p => if p.isEmpty then (false, r) else r.save ("order_" ++ oid) p
      | none => (false, r) := rfl

@[simp] theorem execSpecs_nil (r : InMemoryRepository) :
    execSpecs r [] = r := rfl

@[simp] theorem execSpecs_cons (r : InMemoryRepository) (s : CommandSpec)
    (ss : List CommandSpec) :
    execSpecs r (s :: ss) = execSpecs (stepRepo r s) ss := rfl

/-- Executing a fresh command captures exactly the record stored under its
key. -/
theorem execCmd_fresh_obj (r : InMemoryRepository) (s : CommandSpec) :
    (execCmd (freshObj s) r).2.1 = ⟨s, capturedPrev r s⟩ := by
  cases s with
  | createCmd oid d => rfl
  | updateCmd oid u =>
      show (execCmd ⟨.updateCmd oid u, none⟩ r).2.1 = _
      rw [execCmd_update_eq]
      cases hp : r.load ("order_" ++ oid) with
      | none => simp [capturedPrev, hp]
      | some p =>
          by_cases he : p.isEmpty <;> simp [capturedPrev, hp, he]

/-- Undo exactly inverts the execution of a fresh command, provided a
create's key was absent. -/
theorem undoCmd_inverts_execCmd (r : InMemoryRepository) (s : CommandSpec)
    (hsafe : safeAt r s = true) :
    (undoCmd (execCmd (freshObj s) r).2.1 (execCmd (freshObj s) r).2.2).2 = r := by
  cases s with
  | createCmd oid d =>
      have hnone : AList.get r.data ("order_" ++ oid) = none := by
        simpa [safeAt, Option.isNone_iff_eq_none] using hsafe
      rw [show freshObj (CommandSpec.createCmd oid d) =
        ⟨.createCmd oid d, none⟩ from rfl]
      rw [execCmd_create_eq]
      rw [undoCmd_create_eq]
      unfold InMemoryRepository.delete
      rw [show (⟨AList.set r.data ("order_" ++ oid) d⟩ :
        InMemoryRepository).data = AList.set r.data ("order_" ++ oid) d from rfl]
      rw [AList.get_set_self]
      rw [AList.set_eq_append_of_get_none _ _ _ hnone]
      rw [AList.erase_append]
      rw [AList.erase_of_get_none _ _ hnone]
      rw [show AList.erase [("order_" ++ oid, d)] ("order_" ++ oid) =
        ([] : Dict (Dict Value)) by simp [AList.erase]]
      cases r
      simp
  | updateCmd oid u =>
      rw [show freshObj (CommandSpec.updateCmd oid u) =
        ⟨.updateCmd oid u, none⟩ from rfl]
      rw [execCmd_update_eq]
      cases hp : r.load ("order_" ++ oid) with
      | none => rfl
      | some p =>
          by_cases he : p.isEmpty
          · simp only [if_pos he]
            rw [undoCmd_update_eq]
            simp [he]
          · simp only [if_neg he]
            rw [undoCmd_update_eq]
            simp only [if_neg he]
            unfold InMemoryRepository.save
            rw [show (⟨AList.set r.data ("order_" ++ oid)
              (AList.update p u)⟩ : InMemoryRepository).data =
              AList.set r.data ("order_" ++ oid) (AList.update p u) from rfl]
            rw [AList.set_set_self]
            rw [AList.set_get_self _ _ _ hp]

/-- Re-executing the object produced by a fresh execution, at the same
store, reproduces that execution exactly (`execute` overwrites or ignores
the captured `previous_data`, so nothing stale is read). -/
theorem execCmd_replay (r : InMemoryRepository) (s : CommandSpec) :
    execCmd (execCmd (freshObj s) r).2.1 r = execCmd (freshObj s) r := by
  rw [execCmd_fresh_obj]
  cases s with
  | createCmd oid d =>
      rw [execCmd_create_eq]
      rfl
  | updateCmd oid u =>
      rw [show freshObj (CommandSpec.updateCmd oid u) =
        ⟨.updateCmd oid u, none⟩ from rfl]
      rw [execCmd_update_eq, execCmd_update_eq]

theorem buildHist_length (r : InMemoryRepository) (ss : List CommandSpec) :
    (buildHist r ss).length = ss.length := by
  induction ss generalizing r with
  | nil => rfl
  | cons s rest ih => simp [buildHist, ih]

theorem buildHist_getElem (r : InMemoryRepository) (ss : List CommandSpec)
    (i : Nat) (h : i < ss.length) :
    (buildHist r ss)[i]? =
      some (execCmd (freshObj (ss.get ⟨i, h⟩)) (execSpecs r (ss.take i))).2.1 := by
  induction ss generalizing r i with
  | nil => simp at h
  | cons s rest ih =>
      cases i with
      | zero => simp [buildHist]
      | succ j =>
          have hj : j < rest.length := by simpa using h
          have step : (buildHist r (s :: rest))[j + 1]? =
              (buildHist (stepRepo r s) rest)[j]? := by
            simp [buildHist]
          rw [step, ih (stepRepo r s) j hj]
          rfl

theorem execSpecs_take_succ (r : InMemoryRepository)
    (ss : List CommandSpec) (i : Nat) (h : i < ss.length) :
    execSpecs r (ss.take (i + 1)) =
      stepRepo (execSpecs r (ss.take i)) (ss.get ⟨i, h⟩) := by
  rw [List.take_succ]
  rw [show ss[i]? = some (ss.get ⟨i, h⟩) from List.getElem?_eq_getElem h]
  show List.foldl stepRepo r (ss.take i ++ [ss.get ⟨i, h⟩]) = _
  rw [List.foldl_append]
  rfl

theorem safeSpecs_all (r : InMemoryRepository) (ss : List CommandSpec)
    (hsafe : safeSpecs r ss = true) (i : Nat) (h : i < ss.length) :
    safeAt (execSpecs r (ss.take i)) (ss.get ⟨i, h⟩) = true := by
  induction ss generalizing r i with
  | nil => simp at h
  | cons s rest ih =>
      simp only [safeSpecs, Bool.and_eq_true] at hsafe
      cases i with
      | zero => exact hsafe.1
      | succ j =>
          have hj : j < rest.length := by simpa using h
          have := ih (stepRepo r s) hsafe.2 j hj
          simpa using this

/-- Setting a list cell to the value it already holds is the identity. -/
theorem list_set_getElem_self {α : Type} (l : List α) (i : Nat) (a : α)
    (h : l[i]? = some a) : l.set i a = l := by
  induction l generalizing i with
  | nil => simp at h
  | cons x xs ih =>
      cases i with
      | zero =>
          simp only [List.getElem?_cons_zero, Option.some.injEq] at h
          simp [h]
      | succ j =>
          simp only [List.getElem?_cons_succ] at h
          simp [ih j h]

/-- Executing fresh commands through the manager appends their executed
objects to the history, moves the cursor to the last of them, and drives
the store exactly as executing the commands directly would. -/
theorem execList_eq (r : InMemoryRepository) (h : List CommandObj)
    (ss : List CommandSpec) :
    execList (⟨h, (h.length : Int) - 1⟩, r) ss =
      (⟨h ++ buildHist r ss, ((h.length + ss.length : Nat) : Int) - 1⟩,
       execSpecs r ss) := by
  induction ss generalizing h r with
  | nil => simp [execList, buildHist]
  | cons s rest ih =>
      have hstep : execute_command ⟨h, (h.length : Int) - 1⟩ r (freshObj s) =
          ((execCmd (freshObj s) r).1,
           ⟨h ++ [(execCmd (freshObj s) r).2.1], (h.length : Int)⟩,
           (execCmd (freshObj s) r).2.2) := by
        show ((execCmd (freshObj s) r).1,
          (⟨h.take ((h.length : Int) - 1 + 1).toNat ++
              [(execCmd (freshObj s) r).2.1],
            (h.length : Int) - 1 + 1⟩ : CommandManager),
          (execCmd (freshObj s) r).2.2) = _
        rw [show ((h.length : Int) - 1 + 1).toNat = h.length by omega]
        rw [List.take_length]
        rw [show (h.length : Int) - 1 + 1 = (h.length : Int) by ring]
      rw [show execList (⟨h, (h.length : Int) - 1⟩, r) (s :: rest) =
        execList ((execute_command ⟨h, (h.length : Int) - 1⟩ r (freshObj s)).2.1,
          (execute_command ⟨h, (h.length : Int) - 1⟩ r (freshObj s)).2.2)
          rest from rfl]
      rw [hstep]
      rw [show (h.length : Int) =
        (((h ++ [(execCmd (freshObj s) r).2.1]).length : Nat) : Int) - 1 by
          simp]
      rw [ih]
      simp only [Prod.mk.injEq, CommandManager.mk.injEq]
      refine ⟨⟨?_, ?_⟩, rfl⟩
      · simp [buildHist, stepRepo]
      · simp only [List.length_append, List.length_singleton,
          List.length_cons, List.length_nil]
        push_cast
        ring

theorem mgrUndo_step (repo0 : InMemoryRepository) (ss : List CommandSpec)
    (c : Nat) (hc1 : 1 ≤ c) (hcN : c ≤ ss.length)
    (hsafe : safeSpecs repo0 ss = true) :
    mgrUndo ⟨buildHist repo0 ss, (c : Int) - 1⟩
        (execSpecs repo0 (ss.take c)) =
      some (true, ⟨buildHist repo0 ss, (c : Int) - 1 - 1⟩,
        execSpecs repo0 (ss.take (c - 1))) := by
  have hidx : (0 : Int) ≤ (c : Int) - 1 := by omega
  have hlt : c - 1 < ss.length := by omega
  have hobj := buildHist_getElem repo0 ss (c - 1) hlt
  have hexec : execSpecs repo0 (ss.take c) =
      stepRepo (execSpecs repo0 (ss.take (c - 1))) (ss.get ⟨c - 1, hlt⟩) := by
    have hcc : c - 1 + 1 = c := by omega
    conv_lhs => rw [← hcc]
    exact execSpecs_take_succ repo0 ss (c - 1) hlt
  have hinv := undoCmd_inverts_execCmd (execSpecs repo0 (ss.take (c - 1)))
    (ss.get ⟨c - 1, hlt⟩) (safeSpecs_all repo0 ss hsafe (c - 1) hlt)
  show (if 0 ≤ (c : Int) - 1 then
      match (buildHist repo0 ss)[((c : Int) - 1).toNat]? with
      | some cobj =>
          some (true, (⟨buildHist repo0 ss, (c : Int) - 1 - 1⟩ : CommandManager),
            (undoCmd cobj (execSpecs repo0 (ss.take c))).2)
      | none => none
    else
      some (false, (⟨buildHist repo0 ss, (c : Int) - 1⟩ : CommandManager),
        execSpecs repo0 (ss.take c))) = _
  rw [if_pos hidx]
  rw [show ((c : Int) - 1).toNat = c - 1 by omega]
  rw [hobj]
  show some (true, (⟨buildHist repo0 ss, (c : Int) - 1 - 1⟩ : CommandManager),
    (undoCmd (execCmd (freshObj (ss.get ⟨c - 1, hlt⟩))
        (execSpecs repo0 (ss.take (c - 1)))).2.1
      (execSpecs repo0 (ss.take c))).2) = _
  rw [hexec]
  rw [show stepRepo (execSpecs repo0 (ss.take (c - 1))) (ss.get ⟨c - 1, hlt⟩) =
    (execCmd (freshObj (ss.get ⟨c - 1, hlt⟩))
      (execSpecs repo0 (ss.take (c - 1)))).2.2 from rfl]
  rw [hinv]

theorem undoN_spec (repo0 : InMemoryRepository) (ss : List CommandSpec)
    (hsafe : safeSpecs repo0 ss = true) (k c : Nat) (hk : k ≤ c)
    (hc : c ≤ ss.length) :
    undoN k (⟨buildHist repo0 ss, (c : Int) - 1⟩,
        execSpecs repo0 (ss.take c)) =
      some (⟨buildHist repo0 ss, ((c - k : Nat) : Int) - 1⟩,
        execSpecs repo0 (ss.take (c - k))) := by
  induction k generalizing c with
  | zero => simp [undoN]
  | succ n ih =>
      have hc1 : 1 ≤ c := by omega
      show (match mgrUndo ⟨buildHist repo0 ss, (c : Int) - 1⟩
          (execSpecs repo0 (ss.take c)) with
        | some e => undoN n (e.2.1, e.2.2)
        | none => none) = _
      rw [mgrUndo_step repo0 ss c hc1 hc hsafe]
      show undoN n (⟨buildHist repo0 ss, (c : Int) - 1 - 1⟩,
        execSpecs repo0 (ss.take (c - 1))) = _
      rw [show (c : Int) - 1 - 1 = ((c - 1 : Nat) : Int) - 1 by omega]
      rw [ih (c - 1) (by omega) (by omega)]
      rw [show c - 1 - n = c - (n + 1) by omega]

theorem mgrRedo_step (repo0 : InMemoryRepository) (ss : List CommandSpec)
    (c : Nat) (hc : c < ss.length) :
    mgrRedo ⟨buildHist repo0 ss, (c : Int) - 1⟩
        (execSpecs repo0 (ss.take c)) =
      some (true, ⟨buildHist repo0 ss, (c : Int) - 1 + 1⟩,
        execSpecs repo0 (ss.take (c + 1))) := by
  have hguard : (c : Int) - 1 < ((buildHist repo0 ss).length : Int) - 1 := by
    rw [buildHist_length]
    omega
  have hobj := buildHist_getElem repo0 ss c hc
  show (if (c : Int) - 1 < ((buildHist repo0 ss).length : Int) - 1 then
      match (buildHist repo0 ss)[((c : Int) - 1 + 1).toNat]? with
      | some cobj =>
          some (true,
            (⟨(buildHist repo0 ss).set ((c : Int) - 1 + 1).toNat
                (execCmd cobj (execSpecs repo0 (ss.take c))).2.1,
              (c : Int) - 1 + 1⟩ : CommandManager),
            (execCmd cobj (execSpecs repo0 (ss.take c))).2.2)
      | none => none
    else
      some (false, (⟨buildHist repo0 ss, (c : Int) - 1⟩ : CommandManager),
        execSpecs repo0 (ss.take c))) = _
  rw [if_pos hguard]
  rw [show ((c : Int) - 1 + 1).toNat = c by omega]
  rw [hobj]
  show some (true,
      (⟨(buildHist repo0 ss).set c
          (execCmd (execCmd (freshObj (ss.get ⟨c, hc⟩))
              (execSpecs repo0 (ss.take c))).2.1
            (execSpecs repo0 (ss.take c))).2.1,
        (c : Int) - 1 + 1⟩ : CommandManager),
      (execCmd (execCmd (freshObj (ss.get ⟨c, hc⟩))
          (execSpecs repo0 (ss.take c))).2.1
        (execSpecs repo0 (ss.take c))).2.2) = _
  rw [execCmd_replay (execSpecs repo0 (ss.take c)) (ss.get ⟨c, hc⟩)]
  rw [list_set_getElem_self _ _ _ hobj]
  rw [show (execCmd (freshObj (ss.get ⟨c, hc⟩))
      (execSpecs repo0 (ss.take c))).2.2 =
    stepRepo (execSpecs repo0 (ss.take c)) (ss.get ⟨c, hc⟩) from rfl]
  rw [← execSpecs_take_succ repo0 ss c hc]

theorem redoN_spec (repo0 : InMemoryRepository) (ss : List CommandSpec)
    (j c : Nat) (hcj : c + j ≤ ss.length) :
    redoN j (⟨buildHist repo0 ss, (c : Int) - 1⟩,
        execSpecs repo0 (ss.take c)) =
      some (⟨buildHist repo0 ss, ((c + j : Nat) : Int) - 1⟩,
        execSpecs repo0 (ss.take (c + j))) := by
  induction j generalizing c with
  | zero => simp [redoN]
  | succ n ih =>
      have hc : c < ss.length := by omega
      show (match mgrRedo ⟨buildHist repo0 ss, (c : Int) - 1⟩
          (execSpecs repo0 (ss.take c)) with
        | some e => redoN n (e.2.1, e.2.2)
        | none => none) = _
      rw [mgrRedo_step repo0 ss c hc]
      show redoN n (⟨buildHist repo0 ss, (c : Int) - 1 + 1⟩,
        execSpecs repo0 (ss.take (c + 1))) = _
      rw [show (c : Int) - 1 + 1 = ((c + 1 : Nat) : Int) - 1 by omega]
      rw [ih (c + 1) (by omega)]
      rw [show c + 1 + n = c + (n + 1) by omega]

/-- C3 counterexample: two `CreateOrderCommand`s on the same key.  Both
are idempotent (re-running either `execute` at the store it ran in is a
no-op, shown by the last two conjuncts), yet after `N = 2` executions and
`k = 1` undo the store is empty — the undo of a create deletes the key —
whereas executing only the first `N - k = 1` command leaves the first
record in the store.  So the store does not reflect the first `N - k`
commands, refuting the claim as stated. -/
theorem C3_counterexample :
    undoN 1 (execList (⟨[], -1⟩, (⟨[]⟩ : InMemoryRepository))
        [CommandSpec.createCmd "X" [("total", Value.vint 1)],
         CommandSpec.createCmd "X" [("total", Value.vint 2)]]) =
      some (⟨[⟨.createCmd "X" [("total", Value.vint 1)], none⟩,
              ⟨.createCmd "X" [("total", Value.vint 2)], none⟩], 0⟩,
        ⟨[]⟩) ∧
    execSpecs ⟨[]⟩
        (List.take 1 [CommandSpec.createCmd "X" [("total", Value.vint 1)],
          CommandSpec.createCmd "X" [("total", Value.vint 2)]]) =
      ⟨[("order_X", [("total", Value.vint 1)])]⟩ ∧
    (⟨[]⟩ : InMemoryRepository) ≠
      ⟨[("order_X", [("total", Value.vint 1)])]⟩ ∧
    stepRepo (stepRepo ⟨[]⟩ (CommandSpec.createCmd "X" [("total", Value.vint 1)]))
        (CommandSpec.createCmd "X" [("total", Value.vint 1)]) =
      stepRepo ⟨[]⟩ (CommandSpec.createCmd "X" [("total", Value.vint 1)]) ∧
    stepRepo
        (stepRepo (stepRepo ⟨[]⟩ (CommandSpec.createCmd "X" [("total", Value.vint 1)]))
          (CommandSpec.createCmd "X" [("total", Value.vint 2)]))
        (CommandSpec.createCmd "X" [("total", Value.vint 2)]) =
      stepRepo (stepRepo ⟨[]⟩ (CommandSpec.createCmd "X" [("total", Value.vint 1)]))
        (CommandSpec.createCmd "X" [("total", Value.vint 2)]) := by
  decide

/-- C3 (amended): for any sequence of N fresh commands each invertible at
the store it executes in (every `UpdateOrderCommand` is; a
`CreateOrderCommand` is when its key is absent at that moment, the
condition the counterexample shows cannot be dropped), after `k ≤ N`
`undo` calls the store holds exactly the state reached by executing only
the first `N - k` commands, and after any further `j ≤ k` `redo` calls it
holds the state reached by the first `N - k + j` commands — in particular
all `N` once `j = k`.  No idempotence hypothesis is needed for these two
command types. -/
theorem C3_undo_redo_history (ss : List CommandSpec)
    (repo0 : InMemoryRepository) (k : Nat) (hk : k ≤ ss.length)
    (hsafe : safeSpecs repo0 ss = true) :
    ∃ mU, undoN k (execList (⟨[], -1⟩, repo0) ss) =
        some (mU, execSpecs repo0 (ss.take (ss.length - k))) ∧
      ∀ j, j ≤ k →
        ∃ mR, redoN j (mU, execSpecs repo0 (ss.take (ss.length - k))) =
          some (mR, execSpecs repo0 (ss.take (ss.length - k + j))) := by
  have hexec : execList (⟨[], -1⟩, repo0) ss =
      (⟨buildHist repo0 ss, ((ss.length : Nat) : Int) - 1⟩,
       execSpecs repo0 (ss.take ss.length)) := by
    have h := execList_eq repo0 [] ss
    rw [List.take_length]
    simpa using h
  refine ⟨⟨buildHist repo0 ss, ((ss.length - k : Nat) : Int) - 1⟩, ?_, ?_⟩
  · rw [hexec]
    exact undoN_spec repo0 ss hsafe k ss.length hk le_rfl
  · intro j hj
    exact ⟨⟨buildHist repo0 ss, ((ss.length - k + j : Nat) : Int) - 1⟩,
      redoN_spec repo0 ss j (ss.length - k) (by omega)⟩

/-- Witness for C3 (amended) at a concrete input: a create followed by an
update of the same order, then `k = 1` undo. -/
theorem C3_undo_redo_history_witness :
    ∃ mU, undoN 1 (execList (⟨[], -1⟩, (⟨[]⟩ : InMemoryRepository))
        [CommandSpec.createCmd "1" [("total", Value.vint 0)],
         CommandSpec.updateCmd "1" [("total", Value.vint 5)]]) =
      some (mU, execSpecs ⟨[]⟩
        (List.take 1 [CommandSpec.createCmd "1" [("total", Value.vint 0)],
          CommandSpec.updateCmd "1" [("total", Value.vint 5)]])) ∧
      ∀ j, j ≤ 1 →
        ∃ mR, redoN j (mU, execSpecs ⟨[]⟩
            (List.take 1 [CommandSpec.createCmd "1" [("total", Value.vint 0)],
              CommandSpec.updateCmd "1" [("total", Value.vint 5)]])) =
          some (mR, execSpecs ⟨[]⟩
            (List.take (1 + j)
              [CommandSpec.createCmd "1" [("total", Value.vint 0)],
               CommandSpec.updateCmd "1" [("total", Value.vint 5)]])) := by
  exact C3_undo_redo_history
    [CommandSpec.createCmd "1" [("total", Value.vint 0)],
     CommandSpec.updateCmd "1" [("total", Value.vint 5)]]
    ⟨[]⟩ 1 (by decide) (by decide)

/-- C10: the manager's bookkeeping never consults the commands' own
results: `execute_command` appends the executed object and advances the
cursor whatever the command returned (and an `UpdateOrderCommand` on an
absent key does return `False` and saves nothing); `undo` returns `True`
whenever the cursor points at a command, even though that command's own
`undo()` may return `False` and leave the store untouched (as the update
command with no captured `previous_data` does). -/
theorem C10_manager_bookkeeping_ignores_results :
    (∀ (m : CommandManager) (r : InMemoryRepository) (c : CommandObj),
      (execute_command m r c).2.1.history =
        m.history.take (m.current_index + 1).toNat ++ [(execCmd c r).2.1] ∧
      (execute_command m r c).2.1.current_index = m.current_index + 1) ∧
    (∀ (oid : String) (u : Dict Value) (q : Option (Dict Value))
        (r : InMemoryRepository),
      r.load ("order_" ++ oid) = none →
      execCmd ⟨.updateCmd oid u, q⟩ r = (false, ⟨.updateCmd oid u, none⟩, r)) ∧
    (∀ (m : CommandManager) (r : InMemoryRepository) (c : CommandObj),
      0 ≤ m.current_index →
      m.history[m.current_index.toNat]? = some c →
      mgrUndo m r =
        some (true, ⟨m.history, m.current_index - 1⟩, (undoCmd c r).2)) ∧
    (∀ (oid : String) (u : Dict Value) (r : InMemoryRepository),
      undoCmd ⟨.updateCmd oid u, none⟩ r = (false, r)) := by
  refine ⟨fun m r c => ⟨rfl, rfl⟩, ?_, ?_, fun oid u r => rfl⟩
  · intro oid u q r h
    rw [execCmd_update_eq, h]
  · intro m r c h0 hc
    unfold mgrUndo
    rw [if_pos h0, hc]

/-- Witness for C10 at a concrete input: a manager whose cursor points at
an update command that captured no previous data; `undo` reports success
and steps the cursor back while that command's own `undo()` reports
failure and the store stays empty. -/
theorem C10_manager_bookkeeping_ignores_results_witness :
    mgrUndo ⟨[⟨.updateCmd "9" [("total", Value.vint 3)], none⟩], 0⟩ ⟨[]⟩ =
      some (true, ⟨[⟨.updateCmd "9" [("total", Value.vint 3)], none⟩], -1⟩,
        ⟨[]⟩) ∧
    undoCmd ⟨.updateCmd "9" [("total", Value.vint 3)], none⟩ ⟨[]⟩ =
      (false, ⟨[]⟩) ∧
    execCmd ⟨.updateCmd "9" [("total", Value.vint 3)], none⟩ ⟨[]⟩ =
      (false, ⟨.updateCmd "9" [("total", Value.vint 3)], none⟩, ⟨[]⟩) := by
  refine ⟨?_, ?_, ?_⟩
  · exact C10_manager_bookkeeping_ignores_results.2.2.1
      ⟨[⟨.updateCmd "9" [("total", Value.vint 3)], none⟩], 0⟩ ⟨[]⟩
      ⟨.updateCmd "9" [("total", Value.vint 3)], none⟩
      (by decide) (by decide)
  · exact C10_manager_bookkeeping_ignores_results.2.2.2
      "9" [("total", Value.vint 3)] ⟨[]⟩
  · exact C10_manager_bookkeeping_ignores_results.2.1
      "9" [("total", Value.vint 3)] none ⟨[]⟩ (by decide)

/-! ### Store round-trip (C5) -/

/-- C5 counterexample: a record holding an `OrderState` enum member — as
every record the state machine stores does — cannot be serialized by the
file backend: `json.dump` raises `TypeError`, `save` reports `False` and
leaves a truncated file, and the subsequent `load` returns `None`, not
the record; the in-memory backend round-trips the same record fine, so
the claim fails only for the file backend. -/
theorem C5_counterexample :
    (FileRepository.save ⟨[]⟩ "k" [("state", Value.vstate .CREATED)]).1 =
      false ∧
    FileRepository.load
        (FileRepository.save ⟨[]⟩ "k"
          [("state", Value.vstate .CREATED)]).2 "k" = none ∧
    (none : Option (Dict Value)) ≠
      some [("state", Value.vstate .CREATED)] ∧
    ((⟨[]⟩ : InMemoryRepository).save "k"
        [("state", Value.vstate .CREATED)]).2.load "k" =
      some [("state", Value.vstate .CREATED)] := by
  decide

/-- C5 (amended): save-then-load under the same key returns a record equal
to the one saved, for the in-memory backend on every record, and for the
file backend on every record whose field values are JSON-serializable
(that is, carry no `OrderState` enum member). -/
theorem C5_store_round_trip :
    (∀ (r : InMemoryRepository) (key : String) (d : Dict Value),
      (r.save key d).2.load key = some d) ∧
    (∀ (r : FileRepository) (key : String) (d : Dict Value),
      recordSerializable d = true → (r.save key d).2.load key = some d) := by
  constructor
  · intro r key d
    show AList.get (AList.set r.data key d) key = some d
    exact AList.get_set_self _ _ _
  · intro r key d h
    unfold FileRepository.save
    rw [if_pos h]
    unfold FileRepository.load
    rw [show (⟨AList.set r.files key (.good d)⟩ : FileRepository).files =
      AList.set r.files key (.good d) from rfl]
    rw [AList.get_set_self]

/-- Witness for C5 (amended) at a concrete input: a serializable record
round-trips through both backends. -/
theorem C5_store_round_trip_witness :
    ((⟨[]⟩ : InMemoryRepository).save "k" [("total", Value.vint 7)]).2.load "k" =
      some [("total", Value.vint 7)] ∧
    ((⟨[]⟩ : FileRepository).save "k" [("total", Value.vint 7)]).2.load "k" =
      some [("total", Value.vint 7)] :=
  ⟨C5_store_round_trip.1 ⟨[]⟩ "k" [("total", Value.vint 7)],
   C5_store_round_trip.2 ⟨[]⟩ "k" [("total", Value.vint 7)] (by decide)⟩

/-! ### Event bus (C6, C7) -/

theorem runHandlers_map_fst {σ : Type} (beh : Nat → Event → σ → σ × Bool)
    (e : Event) (hs : List Nat) (s : σ) :
    ((EventBus.runHandlers beh e hs s).2).map Prod.fst = hs := by
  induction hs generalizing s with
  | nil => rfl
  | cons h rest ih => simp [EventBus.runHandlers, ih]

/-- C6: for every bus, event and handler behaviour — including behaviours
in which any subset of the handlers raises — `publish` appends the event
to the history and invokes exactly the handlers registered for the
event's type, each exactly once, in registration order; a raising handler
(its flag in the call log) is caught at the bus boundary, every later
handler still runs, and `publish` itself returns normally (it is a total
function of the embedding). -/
theorem C6_publish_runs_all_handlers {σ : Type}
    (beh : Nat → Event → σ → σ × Bool) (bus : EventBus) (e : Event) (s : σ) :
    ((EventBus.publish beh bus e s).2.2).map Prod.fst =
      (AList.get bus.listeners e.event_type).getD [] ∧
    (EventBus.publish beh bus e s).1 =
      ⟨bus.listeners, bus.event_history ++ [e]⟩ := by
  unfold EventBus.publish
  cases hl : AList.get bus.listeners e.event_type with
  | none => simp
  | some hs => simp [runHandlers_map_fst]

/-- C7 counterexample: with one published event, `recent(0)` returns the
whole history — Python's `history[-0:]` is `history[0:]` — rather than
the last zero events, so the claim fails at `n = 0`. -/
theorem C7_counterexample :
    EventBus.get_recent_events
        ⟨[], [{ event_type := .ORDER_CREATED, data := [], source := "s" }]⟩
        0 =
      [{ event_type := .ORDER_CREATED, data := [], source := "s" }] ∧
    [({ event_type := .ORDER_CREATED, data := [], source := "s" } : Event)] ≠
      ([] : List Event) := by
  decide

/-- C7 (amended): for every `n ≥ 1`, `recent(n)` returns exactly the last
`n` published events in publication order — a suffix of the history of
length `min n (history length)`, so all events when the history is
shorter than `n`.  (At `n = 0` the slice `[-0:]` returns the whole
history instead.) -/
theorem C7_recent_returns_last_n (bus : EventBus) (n : Nat) (h : 1 ≤ n) :
    bus.event_history =
      bus.event_history.take (bus.event_history.length - n) ++
        EventBus.get_recent_events bus n ∧
    (EventBus.get_recent_events bus n).length =
      min n bus.event_history.length := by
  unfold EventBus.get_recent_events
  rw [if_neg (by omega)]
  refine ⟨(List.take_append_drop _ _).symm, ?_⟩
  rw [List.length_drop]
  omega

/-- Witness for C7 (amended) at a concrete input: a two-event history and
`n = 1`. -/
theorem C7_recent_returns_last_n_witness :
    (⟨[], [({ event_type := .ORDER_CREATED, data := [], source := "a" } : Event),
           ({ event_type := .ORDER_SHIPPED, data := [], source := "b" } : Event)]⟩ :
        EventBus).event_history =
      (⟨[], [({ event_type := .ORDER_CREATED, data := [], source := "a" } : Event),
             ({ event_type := .ORDER_SHIPPED, data := [], source := "b" } : Event)]⟩ :
          EventBus).event_history.take
        ((⟨[], [({ event_type := .ORDER_CREATED, data := [], source := "a" } : Event),
                ({ event_type := .ORDER_SHIPPED, data := [], source := "b" } : Event)]⟩ :
            EventBus).event_history.length - 1) ++
        EventBus.get_recent_events
          ⟨[], [({ event_type := .ORDER_CREATED, data := [], source := "a" } : Event),
                ({ event_type := .ORDER_SHIPPED, data := [], source := "b" } : Event)]⟩ 1 ∧
    (EventBus.get_recent_events
        ⟨[], [({ event_type := .ORDER_CREATED, data := [], source := "a" } : Event),
              ({ event_type := .ORDER_SHIPPED, data := [], source := "b" } : Event)]⟩
        1).length =
      min 1 (⟨[], [({ event_type := .ORDER_CREATED, data := [], source := "a" } : Event),
                   ({ event_type := .ORDER_SHIPPED, data := [], source := "b" } : Event)]⟩ :
          EventBus).event_history.length :=
  C7_recent_returns_last_n
    ⟨[], [{ event_type := .ORDER_CREATED, data := [], source := "a" },
          { event_type := .ORDER_SHIPPED, data := [], source := "b" }]⟩
    1 (by decide)

/-! ### Order creation (C8) and inventory (C4) -/

/-- C8 counterexample: `OrderStateManager.create_order` (`global_state.py`)
performs no duplicate check — re-creating `"o1"` replaces the stored
record (its `customer_id` changes from `"A"` to `"B"`) and the call
returns the fresh record, not a negative result. -/
theorem C8_counterexample :
    customerOf (OrderStateManager.init.create_order "o1" "A" ["laptop"]).2.orders
        "o1" = some (Value.vstr "A") ∧
    customerOf ((OrderStateManager.init.create_order "o1" "A" ["laptop"]).2.create_order
          "o1" "B" ["mouse"]).2.orders "o1" = some (Value.vstr "B") ∧
    some (Value.vstr "A") ≠ some (Value.vstr "B") ∧
    ((OrderStateManager.init.create_order "o1" "A" ["laptop"]).2.create_order
        "o1" "B" ["mouse"]).1 =
      [("order_id", Value.vstr "o1"),
       ("customer_id", Value.vstr "B"),
       ("items", Value.vstrList ["mouse"]),
       ("status", Value.vstr "created"),
       ("total", Value.vint 0),
       ("payment_status", Value.vstr "pending"),
       ("inventory_checked", Value.vbool false),
       ("shipping_status", Value.vstr "not_shipped"),
       ("created_at", Value.vstr "2024-01-01T00:00:00Z")] := by
  decide

/-- C8 (amended): the state-machine variant behaves as claimed —
`OrderStateMachine.create_order` on a present id returns `False` without
raising and leaves the collection (hence the existing order) unchanged,
and on a fresh id inserts the new order in state `CREATED` with
`total = 0` — while the global-state manager's `create_order` instead
unconditionally overwrites the stored record. -/
theorem C8_create_semantics :
    (∀ (m : OrderStateMachine) (oid cid : String) (items : List String)
        (o : Dict Value),
      AList.get m.orders oid = some o →
      m.create_order oid cid items = (false, m)) ∧
    (∀ (m : OrderStateMachine) (oid cid : String) (items : List String),
      AList.get m.orders oid = none →
      m.create_order oid cid items =
        (true, ⟨AList.set m.orders oid
          [("order_id", .vstr oid), ("customer_id", .vstr cid),
           ("items", .vstrList items), ("state", .vstate .CREATED),
           ("total", .vint 0)]⟩)) ∧
    (∀ (mgr : OrderStateManager) (oid cid : String) (items : List String),
      AList.get (mgr.create_order oid cid items).2.orders oid =
        some (mgr.create_order oid cid items).1) := by
  refine ⟨?_, ?_, ?_⟩
  · intro m oid cid items o h
    simp only [OrderStateMachine.create_order, h]
  · intro m oid cid items h
    simp only [OrderStateMachine.create_order, h]
  · intro mgr oid cid items
    exact AList.get_set_self _ _ _

/-- Witness for C8 (amended) at a concrete input: creating `"o1"` twice
through the state machine — the second call is refused and the machine is
unchanged. -/
theorem C8_create_semantics_witness :
    ((⟨[]⟩ : OrderStateMachine).create_order "o1" "A" ["laptop"]).2.create_order
        "o1" "B" ["mouse"] =
      (false, ((⟨[]⟩ : OrderStateMachine).create_order "o1" "A" ["laptop"]).2) :=
  C8_create_semantics.1
    ((⟨[]⟩ : OrderStateMachine).create_order "o1" "A" ["laptop"]).2
    "o1" "B" ["mouse"]
    [("order_id", .vstr "o1"), ("customer_id", .vstr "A"),
     ("items", .vstrList ["laptop"]), ("state", .vstate .CREATED),
     ("total", .vint 0)]
    (by decide)

/-- C4: evaluation of `OrderStateManager.reserve_inventory` at the failing
input — eleven copies of `"laptop"` against the initial stock of ten.
The availability check passes (each occurrence sees the undecremented
quantity `10 > 0`), the call returns `True`, and the laptop quantity is
driven to `-1`: the reserve operation does leave a negative quantity, so
the claimed invariant is right and this code path is the bug. -/
theorem C4_reserve_inventory_goes_negative :
    (OrderStateManager.init.reserve_inventory
        ["laptop", "laptop", "laptop", "laptop", "laptop", "laptop",
         "laptop", "laptop", "laptop", "laptop", "laptop"]).1 = true ∧
    AList.get (OrderStateManager.init.reserve_inventory
        ["laptop", "laptop", "laptop", "laptop", "laptop", "laptop",
         "laptop", "laptop", "laptop", "laptop", "laptop"]).2.inventory
        "laptop" = some (-1) := by
  decide

/-! ### Reactive state (C9): the event handlers never write `orders` -/

theorem on_inventory_checked_orders (w : ReactiveOrderState) (e : Event) :
    (ReactiveOrderState.on_inventory_checked w e).orders = w.orders := by
  unfold ReactiveOrderState.on_inventory_checked
  split
  · split <;> rfl
  · rfl

theorem on_payment_processed_orders (w : ReactiveOrderState) (e : Event) :
    (ReactiveOrderState.on_payment_processed w e).orders = w.orders := by
  unfold ReactiveOrderState.on_payment_processed
  split <;> rfl

theorem on_order_shipped_orders (w : ReactiveOrderState) (e : Event) :
    (ReactiveOrderState.on_order_shipped w e).orders = w.orders := by
  unfold ReactiveOrderState.on_order_shipped
  split
  · split
    · split
      · rfl
      · split <;> rfl
    · rfl
  · rfl

theorem check_low_inventory_orders (w : ReactiveOrderState) :
    (ReactiveOrderState.check_low_inventory w).orders = w.orders := by
  unfold ReactiveOrderState.check_low_inventory
  generalize w.inventory = l
  induction l generalizing w with
  | nil => rfl
  | cons p rest ih =>
      rw [List.foldl_cons]
      rw [ih]
      split <;> rfl

/-- Publishing an event never rewrites the order collection: the wired
handlers only append notifications and nested `INVENTORY_LOW` events. -/
theorem rpublish_orders (w : ReactiveOrderState) (e : Event) :
    (ReactiveOrderState.rpublish w e).orders = w.orders := by
  unfold ReactiveOrderState.rpublish
  cases he : e.event_type <;>
    simp [he, on_inventory_checked_orders, check_low_inventory_orders,
      on_payment_processed_orders, on_order_shipped_orders]

/-- On an existing non-empty order whose items fail the availability
loop, `check_inventory` reports the insufficiency and rewrites the stored
record with `inventory_checked := True` (assigned before the branch) and
`status := "inventory_insufficient"`, touching nothing else. -/
theorem check_inventory_insufficient (w : ReactiveOrderState)
    (oid src : String) (order : Dict Value) (items : List String)
    (hord : AList.get w.orders oid = some order)
    (hne : order.isEmpty = false)
    (hitems : AList.get order "items" = some (.vstrList items))
    (havail : (ReactiveOrderState.invCheckLoop w.inventory items 0).2 = false) :
    ∃ w',
      ReactiveOrderState.check_inventory w oid src =
        some ([("error", .vstr "Insufficient inventory")], w') ∧
      w'.orders =
        AList.set w.orders oid
          (AList.set (AList.set order "inventory_checked" (.vbool true))
            "status" (.vstr "inventory_insufficient")) := by
  refine ⟨ReactiveOrderState.rpublish
      (ReactiveOrderState.withOrders w
        (AList.set w.orders oid
          (AList.set (AList.set order "inventory_checked" (.vbool true))
            "status" (.vstr "inventory_insufficient"))))
      { event_type := .INVENTORY_CHECKED,
        data := [("order_id", .pv (.vstr oid)),
                 ("total", .pv (.vint 0)),
                 ("available", .pv (.vbool false))],
        source := src }, ?_, ?_⟩
  · simp only [ReactiveOrderState.check_inventory, hord, hne, hitems, havail,
      ReactiveOrderState.withOrders, Bool.false_eq_true, if_false]
  · rw [rpublish_orders]
    rfl

/-- On an existing non-empty order whose `inventory_checked` flag is
`True`, `process_payment` succeeds, reports the stored total as the
amount, and rewrites the record with `payment_status := "paid"` and
`status := "payment_confirmed"`. -/
theorem process_payment_marks_paid (w : ReactiveOrderState)
    (oid src2 : String) (order : Dict Value) (tv : Value)
    (hord : AList.get w.orders oid = some order)
    (hne : order.isEmpty = false)
    (hflag : AList.get order "inventory_checked" = some (.vbool true))
    (htot : AList.get order "total" = some tv) :
    ∃ w'',
      ReactiveOrderState.process_payment w oid src2 =
        some ([("success", .vbool true), ("amount", tv)], w'') ∧
      w''.orders =
        AList.set w.orders oid
          (AList.set (AList.set order "payment_status" (.vstr "paid"))
            "status" (.vstr "payment_confirmed")) := by
  have htot1 : AList.get
      (AList.set (AList.set order "payment_status" (.vstr "paid"))
        "status" (.vstr "payment_confirmed")) "total" = some tv := by
    rw [AList.get_set_ne _ _ _ _ (by decide),
      AList.get_set_ne _ _ _ _ (by decide)]
    exact htot
  refine ⟨ReactiveOrderState.rpublish
      (ReactiveOrderState.withOrders w
        (AList.set w.orders oid
          (AList.set (AList.set order "payment_status" (.vstr "paid"))
            "status" (.vstr "payment_confirmed"))))
      { event_type := .PAYMENT_PROCESSED,
        data := [("order_id", .pv (.vstr oid)), ("amount", .pv tv)],
        source := src2 }, ?_, ?_⟩
  · simp only [ReactiveOrderState.process_payment, hord, hne, hflag, htot1,
      ReactiveOrderState.withOrders, pyTruthy, Bool.true_eq_false,
      Bool.false_eq_true, if_false]
  · rw [rpublish_orders]
    rfl

/-- C9: in the event-driven variant, for every existing (non-empty) order
whose items fail the availability loop, `check_inventory` still sets the
`inventory_checked` flag to `True` — the assignment precedes the
availability branch — while the order gets status
`"inventory_insufficient"` and its `total` stays unchanged; consequently a
subsequent `process_payment`, which checks only that flag, succeeds and
marks the order paid (`payment_status = "paid"`,
`status = "payment_confirmed"`) despite the insufficient-inventory
outcome, reporting the untouched total as the amount. -/
theorem C9_insufficient_inventory_still_payable (w : ReactiveOrderState)
    (oid src : String) (order : Dict Value) (items : List String) (tv : Value)
    (hord : AList.get w.orders oid = some order)
    (hne : order.isEmpty = false)
    (hitems : AList.get order "items" = some (.vstrList items))
    (havail : (ReactiveOrderState.invCheckLoop w.inventory items 0).2 = false)
    (htot : AList.get order "total" = some tv) :
    ∃ w' order',
      ReactiveOrderState.check_inventory w oid src =
        some ([("error", .vstr "Insufficient inventory")], w') ∧
      AList.get w'.orders oid = some order' ∧
      AList.get order' "inventory_checked" = some (.vbool true) ∧
      AList.get order' "status" = some (.vstr "inventory_insufficient") ∧
      AList.get order' "total" = some tv ∧
      ∀ src2 : String, ∃ w'' order'',
        ReactiveOrderState.process_payment w' oid src2 =
          some ([("success", .vbool true), ("amount", tv)], w'') ∧
        AList.get w''.orders oid = some order'' ∧
        AList.get order'' "payment_status" = some (.vstr "paid") ∧
        AList.get order'' "status" = some (.vstr "payment_confirmed") := by
  obtain ⟨w', hcheck, horders'⟩ :=
    check_inventory_insufficient w oid src order items hord hne hitems havail
  have hord2 : AList.get w'.orders oid =
      some (AList.set (AList.set order "inventory_checked" (.vbool true))
        "status" (.vstr "inventory_insufficient")) := by
    rw [horders']
    exact AList.get_set_self _ _ _
  have hflag2 : AList.get
      (AList.set (AList.set order "inventory_checked" (.vbool true))
        "status" (.vstr "inventory_insufficient")) "inventory_checked" =
      some (.vbool true) := by
    rw [AList.get_set_ne _ _ _ _ (by decide)]
    exact AList.get_set_self _ _ _
  have htot2 : AList.get
      (AList.set (AList.set order "inventory_checked" (.vbool true))
        "status" (.vstr "inventory_insufficient")) "total" = some tv := by
    rw [AList.get_set_ne _ _ _ _ (by decide),
      AList.get_set_ne _ _ _ _ (by decide)]
    exact htot
  refine ⟨w', AList.set (AList.set order "inventory_checked" (.vbool true))
    "status" (.vstr "inventory_insufficient"), hcheck, hord2, hflag2,
    AList.get_set_self _ _ _, htot2, ?_⟩
  intro src2
  obtain ⟨w'', hpay, horders''⟩ := process_payment_marks_paid w' oid src2
    (AList.set (AList.set order "inventory_checked" (.vbool true))
      "status" (.vstr "inventory_insufficient")) tv
    hord2 (AList.set_isEmpty _ _ _) hflag2 htot2
  refine ⟨w'', AList.set (AList.set
      (AList.set (AList.set order "inventory_checked" (.vbool true))
        "status" (.vstr "inventory_insufficient"))
      "payment_status" (.vstr "paid")) "status" (.vstr "payment_confirmed"),
    hpay, ?_, ?_, AList.get_set_self _ _ _⟩
  · rw [horders'']
    exact AList.get_set_self _ _ _
  · rw [AList.get_set_ne _ _ _ _ (by decide)]
    exact AList.get_set_self _ _ _

/-- Witness for C9 at a concrete input: the freshly created order `"o1"`
for one `"tablet"`, an item absent from the initial inventory, so the
availability loop fails — and payment still goes through afterwards. -/
theorem C9_insufficient_inventory_still_payable_witness :
    ∃ w' order',
      ReactiveOrderState.check_inventory
          (ReactiveOrderState.init.create_order "o1" "c1" ["tablet"]
            "order_agent").2 "o1" "inventory_agent" =
        some ([("error", .vstr "Insufficient inventory")], w') ∧
      AList.get w'.orders "o1" = some order' ∧
      AList.get order' "inventory_checked" = some (.vbool true) ∧
      AList.get order' "status" = some (.vstr "inventory_insufficient") ∧
      AList.get order' "total" = some (Value.vint 0) ∧
      ∀ src2 : String, ∃ w'' order'',
        ReactiveOrderState.process_payment w' "o1" src2 =
          some ([("success", .vbool true), ("amount", Value.vint 0)], w'') ∧
        AList.get w''.orders "o1" = some order'' ∧
        AList.get order'' "payment_status" = some (.vstr "paid") ∧
        AList.get order'' "status" = some (.vstr "payment_confirmed") := by
  exact C9_insufficient_inventory_still_payable
    (ReactiveOrderState.init.create_order "o1" "c1" ["tablet"] "order_agent").2
    "o1" "inventory_agent"
    [("order_id", .vstr "o1"), ("customer_id", .vstr "c1"),
     ("items", .vstrList ["tablet"]), ("status", .vstr "created"),
     ("total", .vint 0), ("payment_status", .vstr "pending"),
     ("inventory_checked", .vbool false),
     ("shipping_status", .vstr "not_shipped")]
    ["tablet"] (Value.vint 0)
    (by decide) (by decide) (by decide) (by decide) (by decide)

end StrandsState
